import Mathlib

/-!
Verification of the mnemonic native memory engine
(packages/mnemonic-native: memory_engine.{h,cpp}, domain_engine.{h,cpp}).

Shallow embedding conventions used throughout this development:

* Wall-clock time is passed explicitly.  A C++ call that captures
  `system_clock::now()` becomes a Lean function with an explicit `now : Int`
  argument.  Engine-level times (`Solution.created_date`) are in seconds since
  the epoch, matching the stored decimal-seconds strings; domain-level times
  are in milliseconds, matching the millisecond aggregate ids and
  `duration_ms` payloads.  A single mutator call is modelled as happening at
  one instant (the C++ code reads the clock up to twice within one call,
  microseconds apart).
* `Solution.created_date` is held as the parsed integer.  The C++ code stores
  a decimal string and parses it with `std::stoll` at every use site; the
  embedding carries the parsed value and re-renders it with `toString` where
  the code prints the string.
* `double` arithmetic in the scorer and conflict ratio is modelled exactly in
  `ℚ`.  All scorer constants are small decimal fractions and all inputs in
  range are exactly representable; the only divergence would be the final
  rounding of a quotient, irrelevant to the ordering and bound properties
  proved here.
* `std::unordered_map` keyed state is modelled either as a total function
  from keys to (possibly empty) sequences — for the two per-cache scope maps,
  where the code treats an absent key and a present-but-empty vector
  identically — or as an association list, for the engine-level indexes.
* Mutexes, atomics and the background event-bus thread are not modelled;
  every claim below is about the sequential semantics of a single call chain.
  The three `uint64_t` performance counters wrap modulo 2^64 exactly as the
  C++ atomics do.
-/

/-! ## Data model (memory_engine.h) -/

/-- A stored solution: `content`, parsed `created_date` (seconds since epoch),
`use_count` (the code always constructs it as 1), and the scope tag
`source` ("project" or "global"). -/
structure Solution where
  content : String
  created_date : Int
  use_count : Int
  source : String
deriving DecidableEq, Repr

/-- The four conflict-resolution strategies of `ConflictStrategy`. -/
inductive ConflictStrategy where
  | recent_project_priority
  | newer_solution
  | popularity_based
  | default_local_preference
deriving DecidableEq, Repr

/-- Model of `ConflictResult`: chosen solution, strategy, human-readable reason. -/
structure ConflictResult where
  solution : Solution
  strategy : ConflictStrategy
  reason : String
deriving DecidableEq, Repr

/-- Model of `SolutionCache`: the two scope maps.  An absent problem key is the empty
sequence (the code only ever creates an entry by pushing onto it, and every
read treats a missing key and an empty vector the same way). -/
structure SolutionCache where
  project_solutions : String → List Solution
  global_solutions : String → List Solution

/-- The freshly constructed cache: both maps empty. -/
def emptyCache : SolutionCache :=
  { project_solutions := fun _ => [], global_solutions := fun _ => [] }

/-! ## SolutionCache::addSolution (memory_engine.cpp:11-21) -/

/-- One per-key insertion step: `push_back`, then if the sequence now has more
than 5 entries, erase the head (`erase(begin())`). -/
def capAppend (l : List Solution) (s : Solution) : List Solution :=
  let l2 := l ++ [s]
  if 5 < l2.length then l2.tail else l2

/-- Model of `SolutionCache::addSolution`: append to the chosen scope map under the
problem key, evicting from the head past 5 entries. -/
def SolutionCache.addSolution (c : SolutionCache) (problem : String)
    (s : Solution) (is_global : Bool) : SolutionCache :=
  if is_global then
    { c with global_solutions := fun q =>
        if q = problem then capAppend (c.global_solutions problem) s
        else c.global_solutions q }
  else
    { c with project_solutions := fun q =>
        if q = problem then capAppend (c.project_solutions problem) s
        else c.project_solutions q }

/-- Selects the scope map named by `is_global` (true picks the global map). -/
def SolutionCache.scopeMap (c : SolutionCache) (is_global : Bool) :
    String → List Solution :=
  if is_global then c.global_solutions else c.project_solutions

/-! ## SolutionCache::findSolution (memory_engine.cpp:23-97) -/

/-- The day count used by conflict rule 2:
`std::abs(duration_cast<hours>(project_time - global_time).count()) / 24`.
`duration_cast` truncates toward zero (`Int.tdiv`), `std::abs` then makes the
hour count non-negative, and the division by 24 is C++ integer division of
non-negative values. -/
def ageDiffDays (pt gt : Int) : Nat :=
  ((pt - gt).tdiv 3600).natAbs / 24

/-- The use-count comparison of conflict rule 3, as `double` arithmetic
computes it: `max/min > 3.0` after converting both counts to `double`.
When `min = 0` and `max ≠ 0` the quotient is +infinity (greater than 3);
when both are 0 it is NaN (every comparison false); when `min < 0` the
quotient is at most 1 and never greater than 3.  Conversions of `int` to
`double` are exact, and the quotient rounding cannot cross the 3.0 boundary
for counts below 2^51. -/
def useRatioGt3 (p g : Int) : Bool :=
  let mn := min p g
  let mx := max p g
  if 0 < mn then decide (3 * mn < mx) else decide (mn = 0 ∧ mx ≠ 0)

/-- Model of `SolutionCache::findSolution`, with the single `now` (seconds) captured
per call made explicit.  The most recent solution of a scope is the back of
its sequence; 180 days, 30 days are the cutoffs `hours(24*180)`,
`hours(24*30)` of the code, compared strictly. -/
def SolutionCache.findSolution (c : SolutionCache) (now : Int)
    (problem : String) : Option ConflictResult :=
  match (c.project_solutions problem).getLast?, (c.global_solutions problem).getLast? with
  | none, none => none
  | some latest, none =>
      some ⟨latest, .default_local_preference, "Only project solution available"⟩
  | none, some latest =>
      if now - 180 * 86400 < latest.created_date then
        some ⟨latest, .default_local_preference, "Only recent global solution available"⟩
      else none
  | some ps, some gs =>
      if now - 30 * 86400 < ps.created_date then
        some ⟨ps, .recent_project_priority, "Recent project solution takes priority"⟩
      else
        let dd := ageDiffDays ps.created_date gs.created_date
        if 90 < dd then
          some ⟨if gs.created_date < ps.created_date then ps else gs, .newer_solution,
            "Newer solution chosen (age difference: " ++ toString dd ++ " days)"⟩
        else if useRatioGt3 ps.use_count gs.use_count then
          some ⟨if gs.use_count < ps.use_count then ps else gs, .popularity_based,
            "Popular solution chosen (use counts: project=" ++ toString ps.use_count
              ++ ", global=" ++ toString gs.use_count ++ ")"⟩
        else
          some ⟨ps, .default_local_preference, "Default local preference"⟩

/-- The conflict-resolution procedure exactly as the specification words it
(spec §4.1): rules evaluated in order, first match returns; rule 4.2 computes
`age_diff_days = ⌊|project_time − global_time| / 86400⌋` and the winner is
whichever created_date is greater (ties to the project candidate); rule 4.3
uses floating-point division `max/min > 3.0` under the stated spec
invariant that stored use counts are at least 1, winner is the greater use
count (ties to the project candidate). -/
def findSolutionSpec (c : SolutionCache) (now : Int)
    (problem : String) : Option ConflictResult :=
  match (c.project_solutions problem).getLast?, (c.global_solutions problem).getLast? with
  | none, none => none
  | some latest, none =>
      some ⟨latest, .default_local_preference, "Only project solution available"⟩
  | none, some latest =>
      if now - 180 * 86400 < latest.created_date then
        some ⟨latest, .default_local_preference, "Only recent global solution available"⟩
      else none
  | some ps, some gs =>
      if now - 30 * 86400 < ps.created_date then
        some ⟨ps, .recent_project_priority, "Recent project solution takes priority"⟩
      else
        let dd := (ps.created_date - gs.created_date).natAbs / 86400
        if 90 < dd then
          some ⟨if gs.created_date < ps.created_date then ps
                else if ps.created_date < gs.created_date then gs else ps,
            .newer_solution,
            "Newer solution chosen (age difference: " ++ toString dd ++ " days)"⟩
        else if (3 : ℚ) <
            ((max ps.use_count gs.use_count : Int) : ℚ)
              / ((min ps.use_count gs.use_count : Int) : ℚ) then
          some ⟨if gs.use_count < ps.use_count then ps
                else if ps.use_count < gs.use_count then gs else ps,
            .popularity_based,
            "Popular solution chosen (use counts: project=" ++ toString ps.use_count
              ++ ", global=" ++ toString gs.use_count ++ ")"⟩
        else
          some ⟨ps, .default_local_preference, "Default local preference"⟩

/-! ## ErrorCategorizer (memory_engine.cpp:129-168) -/

/-- A compiled case-insensitive regex is modelled by its matching behaviour on
messages (`std::regex_search` over the whole message).  The claims below never
depend on the regex language itself, only on which component owns the
compiled patterns. -/
def RegexMatcher : Type := String → Bool

/-- Model of `ErrorCategorizer`: the compiled `category → patterns` map.  The C++
`unordered_map` iteration order is unspecified; the model fixes one iteration
order as the list order (spec §4.2 makes the cross-category order explicitly
unspecified-but-stable). -/
structure ErrorCategorizer where
  category_patterns : List (String × List RegexMatcher)

/-- Model of `ErrorCategorizer::categorize`: first category (in iteration order) one of
whose patterns matches; `"errors_uncategorised"` when none match. -/
def ErrorCategorizer.categorize (ec : ErrorCategorizer)
    (error_message : String) : String :=
  match ec.category_patterns.find? (fun cp => cp.2.any (fun r => r error_message)) with
  | some cp => cp.1
  | none => "errors_uncategorised"

/-! ## MemoryEngine (memory_engine.h:132-210, memory_engine.cpp:170-296) -/

/-- Addition of the `uint64_t` atomic counters, wrapping as the hardware
does. -/
def addU64 (a b : Nat) : Nat := (a + b) % (2 ^ 64)

/-- Model of `MemoryEngine` state: the lazily populated `category → SolutionCache`
index (association list), the owned categorizer, and the three performance
counters. -/
structure MemoryEngine where
  category_index : List (String × SolutionCache)
  error_categorizer : ErrorCategorizer
  total_lookups : Nat
  cache_hits : Nat
  total_lookup_time_us : Nat

/-- Lookup of the cache of a category in the index. -/
def lookupCache (idx : List (String × SolutionCache)) (cat : String) :
    Option SolutionCache :=
  (idx.find? (fun e => e.1 == cat)).map (fun e => e.2)

/-- Store a (possibly new) cache back under its category key. -/
def setCache (idx : List (String × SolutionCache)) (cat : String)
    (c : SolutionCache) : List (String × SolutionCache) :=
  if (idx.find? (fun e => e.1 == cat)).isSome then
    idx.map (fun e => if e.1 == cat then (cat, c) else e)
  else idx ++ [(cat, c)]

/-- Model of `MemoryEngine::categorizeError`: direct delegate to the categorizer. -/
def MemoryEngine.categorizeError (e : MemoryEngine) (msg : String) : String :=
  e.error_categorizer.categorize msg

/-- Model of `MemoryEngine::storeSolution` (memory_engine.cpp:184-212).  `now` is the
second count baked into the `created_date` of the new `Solution`; `elapsed_us` is
the measured wall-clock duration of the call, which the code adds to
`total_lookup_time_us` before returning `true`.  Neither `total_lookups` nor
`cache_hits` is touched. -/
def MemoryEngine.storeSolution (e : MemoryEngine)
    (problem category solution_content : String) (is_global : Bool)
    (now : Int) (elapsed_us : Nat) : Bool × MemoryEngine :=
  let final_category := if category = "" then e.categorizeError problem else category
  let cache := (lookupCache e.category_index final_category).getD emptyCache
  let sol : Solution :=
    ⟨solution_content, now, 1, if is_global then "global" else "project"⟩
  let cache2 := cache.addSolution problem sol is_global
  (true,
    { e with
      category_index := setCache e.category_index final_category cache2,
      total_lookup_time_us := addU64 e.total_lookup_time_us elapsed_us })

/-- Model of `MemoryEngine::findSolution` (memory_engine.cpp:214-243): bumps
`total_lookups`, resolves through the cache of the category, bumps `cache_hits`
iff a result was found, and accumulates the duration of the call. -/
def MemoryEngine.findSolution (e : MemoryEngine) (problem category : String)
    (now : Int) (elapsed_us : Nat) : Option ConflictResult × MemoryEngine :=
  let final_category := if category = "" then e.categorizeError problem else category
  let result :=
    match lookupCache e.category_index final_category with
    | none => none
    | some c => c.findSolution now problem
  (result,
    { e with
      total_lookups := addU64 e.total_lookups 1,
      cache_hits := if result.isSome then addU64 e.cache_hits 1 else e.cache_hits,
      total_lookup_time_us := addU64 e.total_lookup_time_us elapsed_us })

/-- The `avg_lookup_time_us` figure of `MemoryEngine::getStatistics`
(memory_engine.cpp:258-259): integer division of the accumulated microseconds
by `total_lookups`, 0 when there have been no lookups. -/
def MemoryEngine.avgLookupTimeUs (e : MemoryEngine) : Nat :=
  if 0 < e.total_lookups then e.total_lookup_time_us / e.total_lookups else 0

/-- Model of `MemoryEngine::clear` (memory_engine.cpp:276-282): drops every
per-category cache and zeroes the three counters; the categorizer is not
touched. -/
def MemoryEngine.clear (e : MemoryEngine) : MemoryEngine :=
  { e with category_index := [], total_lookups := 0, cache_hits := 0,
           total_lookup_time_us := 0 }

/-! ## SolutionScorer (memory_engine.cpp:299-446)

String predicates used by the scorer, over the UTF-8 character list.
`std::string::find` is byte-level search; since both needle and haystack are
valid UTF-8 and no UTF-8 character encoding can begin inside another
continuation bytes of another character, byte-level containment coincides with
character-level containment.  `std::string::length()` counts bytes, modelled
by summing `Char.utf8Size`. -/

/-- Whether `pat` is a prefix of `hay` (character lists). -/
def isPrefixL : List Char → List Char → Bool
  | [], _ => true
  | _ :: _, [] => false
  | a :: as, b :: bs => a == b && isPrefixL as bs

/-- Whether `pat` occurs contiguously in `hay` (the `find != npos` test). -/
def isSubL (pat : List Char) : List Char → Bool
  | [] => isPrefixL pat []
  | c :: rest => isPrefixL pat (c :: rest) || isSubL pat rest

/-- Model of `hay.find(pat) != std::string::npos`. -/
def containsSub (hay pat : String) : Bool := isSubL pat.toList hay.toList

/-- Model of `std::string::length()`: the byte length of the UTF-8 content. -/
def utf8Len (l : List Char) : Nat := (l.map Char.utf8Size).sum

/-- Byte length of a string. -/
def strLen (s : String) : Nat := utf8Len s.toList

/-- Byte-wise `::tolower` in the C locale: lowercases ASCII letters and
leaves every other byte (including UTF-8 continuation bytes) unchanged. -/
def asciiLower (c : Char) : Char :=
  if 'A' ≤ c && c ≤ 'Z' then Char.ofNat (c.toNat + 32) else c

/-- Whitespace for `istringstream >> word` under the C locale:
space, tab, newline, vertical tab, form feed, carriage return. -/
def isSpaceCpp (c : Char) : Bool :=
  c == ' ' || c == '\t' || c == '\n' || c == '\x0b' || c == '\x0c' || c == '\r'

/-- Split into maximal non-whitespace runs (the words `>>` extracts),
carrying the current word reversed in `acc`. -/
def splitWsAux : List Char → List Char → List (List Char)
  | [], acc => if acc.isEmpty then [] else [acc.reverse]
  | c :: cs, acc =>
      if isSpaceCpp c then
        if acc.isEmpty then splitWsAux cs [] else acc.reverse :: splitWsAux cs []
      else splitWsAux cs (c :: acc)

/-- The whitespace-separated words of a character list. -/
def wordsOf (l : List Char) : List (List Char) := splitWsAux l []

/-- Model of `SolutionScorer::scoreCompleteness` (memory_engine.cpp:323-340): additive
bonuses starting from 0, clamped above at 1. -/
def scoreCompleteness (solution_content : String) : ℚ :=
  let score : ℚ :=
    (if 20 < strLen solution_content then 0.3 else 0)
    + (if 100 < strLen solution_content then 0.2 else 0)
    + (if containsSub solution_content "```" then 0.2 else 0)
    + (if containsSub solution_content "npm" || containsSub solution_content "yarn"
       then 0.1 else 0)
    + (if containsSub solution_content "1." || containsSub solution_content "2."
       then 0.2 else 0)
  min 1 score

/-- Model of `SolutionScorer::scoreClarity` (memory_engine.cpp:342-362): base 0.5 with
bonuses and penalties, clamped to [0,1]. -/
def scoreClarity (solution_content : String) : ℚ :=
  let score : ℚ := 0.5
    - (if strLen solution_content < 10 then 0.3 else 0)
    + (if containsSub solution_content "\n" then 0.1 else 0)
    + (if containsSub solution_content "- " then 0.1 else 0)
    + (if containsSub solution_content "need to" || containsSub solution_content "should"
          || containsSub solution_content "try" then 0.2 else 0)
    - (if containsSub solution_content "maybe" || containsSub solution_content "not sure"
       then 0.2 else 0)
  max 0 (min 1 score)

/-- Model of `SolutionScorer::scoreSpecificity` (memory_engine.cpp:364-399): both sides
lowercased byte-wise, problem split into words, words longer than 3 bytes
counted, matched fraction scaled by 0.6, technical bonus, clamped above. -/
def scoreSpecificity (solution_content problem_context : String) : ℚ :=
  let lower_solution := solution_content.toList.map asciiLower
  let lower_problem := problem_context.toList.map asciiLower
  let meaningful := (wordsOf lower_problem).filter (fun w => 3 < utf8Len w)
  let total_terms := meaningful.length
  let matched_terms := (meaningful.filter (fun w => isSubL w lower_solution)).length
  let score : ℚ := 0.2
    + (if 0 < total_terms then (matched_terms : ℚ) / (total_terms : ℚ) * 0.6 else 0)
    + (if containsSub solution_content "config" || containsSub solution_content ".json"
          || containsSub solution_content "package.json" then 0.2 else 0)
  min 1 score

/-- Model of `SolutionScorer::scoreReliability` (memory_engine.cpp:401-421): age
bracket (an else-if chain) plus cumulative use-count bonuses, clamped to
[0,1].  `age_days` truncates toward zero twice, as
`duration_cast<hours>(...).count() / 24` does; `usage_stats` is accepted and
ignored exactly as in the source. -/
def scoreReliability (sol : Solution) (usage_stats : List (String × Int))
    (now : Int) : ℚ :=
  let age_days : Int := ((now - sol.created_date).tdiv 3600).tdiv 24
  let score : ℚ := 0.5
    + (if age_days < 30 then 0.3
       else if age_days < 90 then 0.2
       else if age_days < 180 then 0.1
       else if 365 < age_days then -0.2 else 0)
    + (if 1 < sol.use_count then 0.1 else 0)
    + (if 3 < sol.use_count then 0.1 else 0)
    + (if 5 < sol.use_count then 0.1 else 0)
  max 0 (min 1 score)

/-- Model of `SolutionScorer::scoreContextRelevance` (memory_engine.cpp:423-446):
base 0.3 plus stack-match bonuses (case-sensitive substring tests), clamped
above. -/
def scoreContextRelevance (solution_content problem_context : String) : ℚ :=
  let score : ℚ := 0.3
    + (if (containsSub problem_context "npm" && containsSub solution_content "npm")
          || (containsSub problem_context "node" && containsSub solution_content "node")
       then 0.3 else 0)
    + (if (containsSub problem_context "auth" && containsSub solution_content "auth")
          || (containsSub problem_context "OAuth" && containsSub solution_content "OAuth")
       then 0.4 else 0)
  min 1 score

/-- Model of `QualityMetrics` (memory_engine.h:217-229). -/
structure QualityMetrics where
  completeness_score : ℚ
  clarity_score : ℚ
  specificity_score : ℚ
  reliability_score : ℚ
  context_relevance : ℚ
deriving DecidableEq, Repr

/-- Model of `QualityMetrics::combined_score` (memory_engine.h:224-228). -/
def QualityMetrics.combined_score (m : QualityMetrics) : ℚ :=
  m.completeness_score * 0.25 + m.clarity_score * 0.20
    + m.specificity_score * 0.25 + m.reliability_score * 0.15
    + m.context_relevance * 0.15

/-- Model of `SolutionScorer::getDetailedMetrics` (memory_engine.cpp:310-321):
reliability defaults to 0.5 here, overridden by `scoreSolution`. -/
def getDetailedMetrics (sol : Solution) (problem_context : String) : QualityMetrics :=
  { completeness_score := scoreCompleteness sol.content
    clarity_score := scoreClarity sol.content
    specificity_score := scoreSpecificity sol.content problem_context
    reliability_score := 0.5
    context_relevance := scoreContextRelevance sol.content problem_context }

/-- Model of `SolutionScorer::scoreSolution` (memory_engine.cpp:299-308): detailed
metrics with reliability overridden, then the combined score. -/
def scoreSolution (sol : Solution) (problem_context : String)
    (usage_stats : List (String × Int)) (now : Int) : ℚ :=
  ({ getDetailedMetrics sol problem_context with
      reliability_score := scoreReliability sol usage_stats now }).combined_score

/-! ## Ranked retrieval (memory_engine.cpp:453-520)

`EnhancedMemoryEngine::findRankedSolutions` builds the scored candidate list
deterministically and then sorts it with `std::sort` under the comparator
`a.second > b.second`.  `std::sort` guarantees only that the result is some
permutation of the input that is sorted with respect to the comparator — the
relative order of equal-score candidates is unspecified — so the call is
modelled as a relation between the engine state and the possible outputs. -/

/-- The pre-sort candidate list of `findRankedSolutions`: resolve the search
category, read `getAllSolutions` (project sequence then global sequence, each
oldest to newest), wrap each in a `ConflictResult` with
`default_local_preference` / "AI-ranked result", and score it against the
problem text with empty usage stats. -/
def scoredCandidates (e : MemoryEngine) (problem category : String)
    (now : Int) : List (ConflictResult × ℚ) :=
  let search_category := if category = "" then e.categorizeError problem else category
  match lookupCache e.category_index search_category with
  | none => []
  | some cache =>
      (cache.project_solutions problem ++ cache.global_solutions problem).map
        (fun s => (⟨s, .default_local_preference, "AI-ranked result"⟩,
                   scoreSolution s problem [] now))

/-- The final truncation of `findRankedSolutions`:
`if (ranked_solutions.size() > max_suggestions) resize(max_suggestions)`.
`max_suggestions` is a signed `int` compared against `size_t`, so a negative
bound converts to a huge unsigned value and never truncates. -/
def limitResults (max_suggestions : Int) (l : List (ConflictResult × ℚ)) :
    List (ConflictResult × ℚ) :=
  if 0 ≤ max_suggestions ∧ max_suggestions < (l.length : Int) then
    l.take max_suggestions.toNat
  else l

/-- Sortedness with respect to the comparator `a.second > b.second`: any two
elements in order have non-increasing scores. -/
def sortedDesc (l : List (ConflictResult × ℚ)) : Prop :=
  l.Sorted (fun a b => b.2 ≤ a.2)

/-- The input/output relation of `EnhancedMemoryEngine::findRankedSolutions`:
the output is the truncation of some comparator-sorted permutation of the
scored candidates (the permutation being whichever one `std::sort`
produces). -/
def FindRankedResult (e : MemoryEngine) (problem category : String)
    (max_suggestions : Int) (now : Int)
    (out : List (ConflictResult × ℚ)) : Prop :=
  ∃ s, s.Perm (scoredCandidates e problem category now) ∧ sortedDesc s ∧
    out = limitResults max_suggestions s

/-- Stable descending insertion used by the stable sort of the claim: the inserted
element goes immediately before the first element whose score is not strictly
greater, so equal scores keep their pre-sort order. -/
def insertDescStable (x : ConflictResult × ℚ) :
    List (ConflictResult × ℚ) → List (ConflictResult × ℚ)
  | [] => [x]
  | y :: ys => if x.2 < y.2 then y :: insertDescStable x ys else x :: y :: ys

/-- The stable descending-by-score sort named by the claim (spec §4.5:
"sorts descending by score (stable sort; ties preserve pre-sort order)"). -/
def stableSortDesc : List (ConflictResult × ℚ) → List (ConflictResult × ℚ)
  | [] => []
  | x :: xs => insertDescStable x (stableSortDesc xs)

/-- Model of `findRankedSolutions` as the claim describes it: the scored candidates,
stably sorted descending by score, truncated to the bound. -/
def findRankedSolutionsSpec (e : MemoryEngine) (problem category : String)
    (max_suggestions : Int) (now : Int) : List (ConflictResult × ℚ) :=
  limitResults max_suggestions (stableSortDesc (scoredCandidates e problem category now))

/-! ## getSuggestions (memory_engine.cpp:496-520) -/

/-- Comma join, matching the `if (i > 0) json << ","` loop. -/
def joinComma : List String → String
  | [] => ""
  | [x] => x
  | x :: y :: xs => x ++ "," ++ joinComma (y :: xs)

/-- Round half to even, the rounding `std::fixed << setprecision(3)` applies
to the score (the double abstraction makes ties exact here). -/
def roundHalfEven (q : ℚ) : Int :=
  let f := ⌊q⌋
  let r := q - (f : ℚ)
  f + (if r < 1 / 2 then 0 else if 1 / 2 < r then 1 else if f % 2 = 0 then 0 else 1)

/-- Left pad of the three fractional digits. -/
def padThree (m : Nat) : String :=
  if m < 10 then "00" ++ toString m
  else if m < 100 then "0" ++ toString m
  else toString m

/-- Model of `std::fixed << std::setprecision(3)` rendering of the score. -/
def formatFixed3 (q : ℚ) : String :=
  let n := roundHalfEven (q * 1000)
  let a := n.natAbs
  (if n < 0 then "-" else "") ++ toString (a / 1000) ++ "." ++ padThree (a % 1000)

/-- The serialization step of `EnhancedMemoryEngine::getSuggestions`: the
JSON text is assembled by plain string concatenation, embedding `solution`,
`source`, `created_date` and `context` verbatim with no escaping, exactly as
the `ostringstream` chain does. -/
def suggestionsJson (ranked : List (ConflictResult × ℚ)) (context : String) : String :=
  "\x7b\"suggestions\":["
    ++ joinComma (ranked.map (fun rs =>
        "\x7b\"solution\":\"" ++ rs.1.solution.content
          ++ "\",\"score\":" ++ formatFixed3 rs.2
          ++ ",\"source\":\"" ++ rs.1.solution.source
          ++ "\",\"use_count\":" ++ toString rs.1.solution.use_count
          ++ ",\"created_date\":\"" ++ toString rs.1.solution.created_date
          ++ "\"\x7d"))
    ++ "],\"total_found\":" ++ toString ranked.length
    ++ ",\"context\":\"" ++ context ++ "\"\x7d"

/-- The input/output relation of `EnhancedMemoryEngine::getSuggestions`:
`findRankedSolutions(problem, "", 5)` followed by the serialization above. -/
def GetSuggestionsResult (e : MemoryEngine) (problem context : String)
    (now : Int) (out : String) : Prop :=
  ∃ ranked, FindRankedResult e problem "" 5 now ranked ∧
    out = suggestionsJson ranked context

/-! ## A JSON syntax acceptor (RFC 8259), used to state the validity half of
the suggestions claim.  `jsonVal fuel cs` consumes one JSON value from `cs`
and returns the remaining characters; strings admit the standard escapes and
reject unescaped control characters and quotes. -/

/-- Skip JSON whitespace. -/
def jsonWs : List Char → List Char
  | c :: cs => if c == ' ' || c == '\t' || c == '\n' || c == '\r' then jsonWs cs else c :: cs
  | [] => []

/-- Hexadecimal digit test for \u escapes. -/
def isHexDigit (c : Char) : Bool :=
  ('0' ≤ c && c ≤ '9') || ('a' ≤ c && c ≤ 'f') || ('A' ≤ c && c ≤ 'F')

/-- Consume the body of a JSON string after the opening quote, up to and
including the closing quote. -/
def jsonStringRest : List Char → Option (List Char)
  | [] => none
  | c :: cs =>
      if c == '"' then some cs
      else if c == '\\' then
        match cs with
        | [] => none
        | e :: cs2 =>
            if e == '"' || e == '\\' || e == '/' || e == 'b' || e == 'f'
                || e == 'n' || e == 'r' || e == 't' then jsonStringRest cs2
            else if e == 'u' then
              match cs2 with
              | h1 :: h2 :: h3 :: h4 :: cs3 =>
                  if isHexDigit h1 && isHexDigit h2 && isHexDigit h3 && isHexDigit h4 then
                    jsonStringRest cs3
                  else none
              | _ => none
            else none
      else if c.toNat < 32 then none
      else jsonStringRest cs

/-- Consume a (possibly empty) run of decimal digits. -/
def jsonDigits : List Char → List Char
  | c :: cs => if '0' ≤ c && c ≤ '9' then jsonDigits cs else c :: cs
  | [] => []

/-- Consume one or more decimal digits. -/
def jsonDigits1 : List Char → Option (List Char)
  | c :: cs => if '0' ≤ c && c ≤ '9' then some (jsonDigits cs) else none
  | [] => none

/-- Consume a JSON number after an optional leading minus sign. -/
def jsonNumRest (cs : List Char) : Option (List Char) := do
  let cs1 ←
    match cs with
    | c :: cs0 =>
        if c == '0' then some cs0
        else if '1' ≤ c && c ≤ '9' then some (jsonDigits cs0)
        else none
    | [] => none
  let cs2 ←
    match cs1 with
    | c :: cs0 => if c == '.' then jsonDigits1 cs0 else some cs1
    | [] => some cs1
  match cs2 with
  | c :: cs0 =>
      if c == 'e' || c == 'E' then
        match cs0 with
        | d :: cs3 =>
            if d == '+' || d == '-' then jsonDigits1 cs3 else jsonDigits1 cs0
        | [] => none
      else some cs2
  | [] => some cs2

/-- Literal keyword test. -/
def jsonLit (kw : List Char) (cs : List Char) : Option (List Char) :=
  if isPrefixL kw cs then some (cs.drop kw.length) else none

mutual

/-- Consume one JSON value (with surrounding whitespace handled by callers). -/
def jsonVal : Nat → List Char → Option (List Char)
  | 0, _ => none
  | _ + 1, [] => none
  | fuel + 1, c :: cs =>
      if c == '"' then jsonStringRest cs
      else if c == '-' then jsonNumRest cs
      else if '0' ≤ c && c ≤ '9' then jsonNumRest (c :: cs)
      else if c == '\x7b' then jsonMembers fuel (jsonWs cs) true
      else if c == '[' then jsonElems fuel (jsonWs cs) true
      else if c == 't' then jsonLit ['t', 'r', 'u', 'e'] (c :: cs)
      else if c == 'f' then jsonLit ['f', 'a', 'l', 's', 'e'] (c :: cs)
      else if c == 'n' then jsonLit ['n', 'u', 'l', 'l'] (c :: cs)
      else none

/-- Consume object members up to and including the closing brace; `first`
marks whether no member has been consumed yet. -/
def jsonMembers : Nat → List Char → Bool → Option (List Char)
  | 0, _, _ => none
  | _ + 1, [], _ => none
  | fuel + 1, c :: cs, first => do
      if c == '\x7d' && first then
        some cs
      else do
        let cs1 ←
          if first then some (c :: cs)
          else if c == ',' then some (jsonWs cs) else none
        let cs2 ←
          match cs1 with
          | q :: cs2 => if q == '"' then jsonStringRest cs2 else none
          | [] => none
        let cs3 := jsonWs cs2
        let cs4 ←
          match cs3 with
          | k :: cs4 => if k == ':' then some (jsonWs cs4) else none
          | [] => none
        let cs5 ← jsonVal fuel cs4
        match jsonWs cs5 with
        | d :: cs6 =>
            if d == '\x7d' then some cs6
            else jsonMembers fuel (d :: cs6) false
        | [] => none

/-- Consume array elements up to and including the closing bracket. -/
def jsonElems : Nat → List Char → Bool → Option (List Char)
  | 0, _, _ => none
  | _ + 1, [], _ => none
  | fuel + 1, c :: cs, first => do
      if c == ']' && first then
        some cs
      else do
        let cs1 ←
          if first then some (c :: cs)
          else if c == ',' then some (jsonWs cs) else none
        let cs2 ← jsonVal fuel (jsonWs cs1)
        match jsonWs cs2 with
        | d :: cs3 =>
            if d == ']' then some cs3
            else jsonElems fuel (d :: cs3) false
        | [] => none

end

/-- A string is syntactically valid JSON when one JSON value plus whitespace
consumes it entirely. -/
def jsonValid (s : String) : Bool :=
  let cs := s.toList
  match jsonVal (cs.length + 1) (jsonWs cs) with
  | some rest => (jsonWs rest).isEmpty
  | none => false

/-! ## Domain events and aggregates (domain_engine.h, domain_engine.cpp)

Event payloads are JSON objects serialized with jsoncpp and parsed back in
`applyEvent`.  The round trip is lossless for the fields involved, so the
payload is modelled structurally; the jsoncpp behaviour of reading a missing
field (`asString()` of null is "", `asDouble()` of null is 0.0) is kept in
the field accessors.  The random "evt_" + 16-hex-digit event id plays no role
in any claim and is not modelled.  Domain-level times are milliseconds since
the epoch. -/

/-- The structured payloads the two aggregates serialize into
`event_data`. -/
inductive EventData where
  | memoryEntryCreated (problem solution category : String)
  | memoryEntryUpdated (old_solution new_solution reason : String)
  | conflictDetected (conflict_id strategy : String) (total_conflicts : Int)
  | confidenceUpdated (old_confidence new_confidence : ℚ)
  | searchSessionStarted (query : String) (started_at : Int)
  | layerAdded (layer_type : String) (layer_order : Int)
  | resultAdded (result_id : String) (confidence : ℚ) (total_results : Int)
  | searchSessionCompleted (final_confidence : ℚ) (duration_ms : Int)
      (layers_used : Int) (results_found : Int)
  | searchSessionFailed (reason : String) (duration_ms : Int)
deriving DecidableEq, Repr

/-- Model of `data["layer_type"].asString()`. -/
def dataLayerType : EventData → String
  | .layerAdded t _ => t
  | _ => ""

/-- Model of `data["result_id"].asString()`. -/
def dataResultId : EventData → String
  | .resultAdded r _ _ => r
  | _ => ""

/-- Model of `data["final_confidence"].asDouble()`. -/
def dataFinalConfidence : EventData → ℚ
  | .searchSessionCompleted f _ _ _ => f
  | _ => 0

/-- Model of `data["new_solution"].asString()`. -/
def dataNewSolution : EventData → String
  | .memoryEntryUpdated _ n _ => n
  | _ => ""

/-- Model of `data["conflict_id"].asString()`. -/
def dataConflictId : EventData → String
  | .conflictDetected c _ _ => c
  | _ => ""

/-- Model of `data["new_confidence"].asDouble()`. -/
def dataNewConfidence : EventData → ℚ
  | .confidenceUpdated _ n => n
  | _ => 0

/-- Model of `DomainEvent` (domain_engine.h:15-30): aggregate id, type tag, payload,
construction timestamp (ms) and the per-aggregate version stamped by
`raiseEvent`. -/
structure DomainEvent where
  aggregate_id : String
  event_type : String
  event_data : EventData
  timestamp : Int
  version : Int
deriving DecidableEq, Repr

/-- Model of `SearchSessionAggregate` state (domain_engine.h plus the inherited
`AggregateRoot` fields `id`, `version`, `uncommitted_events`).
`completed_at` is a default-constructed time point (the epoch, 0) until a
terminal transition sets it. -/
structure SearchSessionAggregate where
  id : String
  version : Int
  uncommitted_events : List DomainEvent
  query : String
  layers_used : List String
  result_ids : List String
  started_at : Int
  completed_at : Int
  final_confidence : ℚ
  session_status : String
deriving DecidableEq, Repr

/-- Model of `SearchSessionAggregate::applyEvent` (domain_engine.cpp:279-304):
`LayerAdded` / `ResultAdded` append only when the value is not already
present (replay de-duplication); terminal events overwrite status,
confidence and `completed_at` from the event. -/
def SearchSessionAggregate.applyEvent (a : SearchSessionAggregate)
    (e : DomainEvent) : SearchSessionAggregate :=
  if e.event_type = "SearchSessionStarted" then a
  else if e.event_type = "LayerAdded" then
    let lt := dataLayerType e.event_data
    if lt ∈ a.layers_used then a else { a with layers_used := a.layers_used ++ [lt] }
  else if e.event_type = "ResultAdded" then
    let rid := dataResultId e.event_data
    if rid ∈ a.result_ids then a else { a with result_ids := a.result_ids ++ [rid] }
  else if e.event_type = "SearchSessionCompleted" then
    { a with session_status := "completed",
             final_confidence := dataFinalConfidence e.event_data,
             completed_at := e.timestamp }
  else if e.event_type = "SearchSessionFailed" then
    { a with session_status := "failed", completed_at := e.timestamp }
  else a

/-- Model of `AggregateRoot::raiseEvent` (domain_engine.cpp:110-116) specialised to
the search session: bump the version, stamp it on a fresh event, enqueue the
event, then apply it to local state. -/
def SearchSessionAggregate.raiseEvent (a : SearchSessionAggregate)
    (event_type : String) (d : EventData) (now : Int) : SearchSessionAggregate :=
  let v := a.version + 1
  let e : DomainEvent := ⟨a.id, event_type, d, now, v⟩
  SearchSessionAggregate.applyEvent
    { a with version := v, uncommitted_events := a.uncommitted_events ++ [e] } e

/-- The `SearchSessionAggregate(session_id, query)` constructor
(domain_engine.cpp:205-208). -/
def SearchSessionAggregate.mk0 (session_id query : String)
    (now : Int) : SearchSessionAggregate :=
  ⟨session_id, 0, [], query, [], [], now, 0, 0, "active"⟩

/-- Model of `SearchSessionAggregate::create` (domain_engine.cpp:210-225): id
`search_<ms-epoch>`, construct, raise `SearchSessionStarted` (payload carries
the started time in seconds). -/
def SearchSessionAggregate.create (query : String) (now : Int) : SearchSessionAggregate :=
  let a := SearchSessionAggregate.mk0 ("search_" ++ toString now) query now
  a.raiseEvent "SearchSessionStarted" (.searchSessionStarted query (now.tdiv 1000)) now

/-- Model of `SearchSessionAggregate::addLayer` (domain_engine.cpp:227-236): push the
layer unconditionally, then raise `LayerAdded`. -/
def SearchSessionAggregate.addLayer (a : SearchSessionAggregate)
    (layer_type : String) (now : Int) : SearchSessionAggregate :=
  let a2 := { a with layers_used := a.layers_used ++ [layer_type] }
  a2.raiseEvent "LayerAdded" (.layerAdded layer_type (a2.layers_used.length : Int)) now

/-- Model of `SearchSessionAggregate::addResult` (domain_engine.cpp:238-248). -/
def SearchSessionAggregate.addResult (a : SearchSessionAggregate)
    (result_id : String) (confidence : ℚ) (now : Int) : SearchSessionAggregate :=
  let a2 := { a with result_ids := a.result_ids ++ [result_id] }
  a2.raiseEvent "ResultAdded"
    (.resultAdded result_id confidence (a2.result_ids.length : Int)) now

/-- Model of `SearchSessionAggregate::complete` (domain_engine.cpp:250-264): no
terminal-state guard — status, confidence and `completed_at` are overwritten
and the event is raised unconditionally. -/
def SearchSessionAggregate.complete (a : SearchSessionAggregate)
    (final_conf : ℚ) (now : Int) : SearchSessionAggregate :=
  let a2 := { a with session_status := "completed", final_confidence := final_conf,
                     completed_at := now }
  a2.raiseEvent "SearchSessionCompleted"
    (.searchSessionCompleted final_conf (now - a2.started_at)
      (a2.layers_used.length : Int) (a2.result_ids.length : Int)) now

/-- Model of `SearchSessionAggregate::fail` (domain_engine.cpp:266-277): also
unguarded. -/
def SearchSessionAggregate.fail (a : SearchSessionAggregate)
    (reason : String) (now : Int) : SearchSessionAggregate :=
  let a2 := { a with session_status := "failed", completed_at := now }
  a2.raiseEvent "SearchSessionFailed"
    (.searchSessionFailed reason (now - a2.started_at)) now

/-- Model of `MemoryEntryAggregate` state (domain_engine.h plus inherited fields). -/
structure MemoryEntryAggregate where
  id : String
  version : Int
  uncommitted_events : List DomainEvent
  problem : String
  solution : String
  category : String
  created_at : Int
  updated_at : Int
  confidence_score : ℚ
  conflict_ids : List String
deriving DecidableEq, Repr

/-- Model of `MemoryEntryAggregate::applyEvent` (domain_engine.cpp:183-202):
`ConflictDetected` de-duplicates by conflict id on replay. -/
def MemoryEntryAggregate.applyEvent (a : MemoryEntryAggregate)
    (e : DomainEvent) : MemoryEntryAggregate :=
  if e.event_type = "MemoryEntryCreated" then a
  else if e.event_type = "MemoryEntryUpdated" then
    { a with solution := dataNewSolution e.event_data, updated_at := e.timestamp }
  else if e.event_type = "ConflictDetected" then
    let cid := dataConflictId e.event_data
    if cid ∈ a.conflict_ids then a else { a with conflict_ids := a.conflict_ids ++ [cid] }
  else if e.event_type = "ConfidenceUpdated" then
    { a with confidence_score := dataNewConfidence e.event_data }
  else a

/-- Model of `raiseEvent` specialised to the memory entry. -/
def MemoryEntryAggregate.raiseEvent (a : MemoryEntryAggregate)
    (event_type : String) (d : EventData) (now : Int) : MemoryEntryAggregate :=
  let v := a.version + 1
  let e : DomainEvent := ⟨a.id, event_type, d, now, v⟩
  MemoryEntryAggregate.applyEvent
    { a with version := v, uncommitted_events := a.uncommitted_events ++ [e] } e

/-- The `MemoryEntryAggregate(entry_id, prob, sol, cat)` constructor
(domain_engine.cpp:119-124): `created_at = updated_at = now`, confidence 0. -/
def MemoryEntryAggregate.mk0 (entry_id prob sol cat : String)
    (now : Int) : MemoryEntryAggregate :=
  ⟨entry_id, 0, [], prob, sol, cat, now, now, 0, []⟩

/-- Model of `MemoryEntryAggregate::create` (domain_engine.cpp:126-143). -/
def MemoryEntryAggregate.create (problem solution category : String)
    (now : Int) : MemoryEntryAggregate :=
  let a := MemoryEntryAggregate.mk0 ("mem_" ++ toString now) problem solution category now
  a.raiseEvent "MemoryEntryCreated" (.memoryEntryCreated problem solution category) now

/-- Model of `MemoryEntryAggregate::updateSolution` (domain_engine.cpp:145-157). -/
def MemoryEntryAggregate.updateSolution (a : MemoryEntryAggregate)
    (new_solution reason : String) (now : Int) : MemoryEntryAggregate :=
  let a2 := { a with solution := new_solution, updated_at := now }
  a2.raiseEvent "MemoryEntryUpdated"
    (.memoryEntryUpdated a.solution new_solution reason) now

/-- Model of `MemoryEntryAggregate::addConflict` (domain_engine.cpp:159-169): pushes
unconditionally, then raises `ConflictDetected`. -/
def MemoryEntryAggregate.addConflict (a : MemoryEntryAggregate)
    (conflict_id strategy : String) (now : Int) : MemoryEntryAggregate :=
  let a2 := { a with conflict_ids := a.conflict_ids ++ [conflict_id] }
  a2.raiseEvent "ConflictDetected"
    (.conflictDetected conflict_id strategy (a2.conflict_ids.length : Int)) now

/-- Model of `MemoryEntryAggregate::setConfidence` (domain_engine.cpp:171-181). -/
def MemoryEntryAggregate.setConfidence (a : MemoryEntryAggregate)
    (score : ℚ) (now : Int) : MemoryEntryAggregate :=
  let a2 := { a with confidence_score := score }
  a2.raiseEvent "ConfidenceUpdated"
    (.confidenceUpdated a.confidence_score score) now

/-! ## Replay and mutation traces (for the replay-equivalence claim) -/

/-- Replaying an event stream onto an aggregate: fold `applyEvent`. -/
def replaySession (blank : SearchSessionAggregate)
    (events : List DomainEvent) : SearchSessionAggregate :=
  events.foldl SearchSessionAggregate.applyEvent blank

/-- Replaying an event stream onto a memory entry. -/
def replayEntry (blank : MemoryEntryAggregate)
    (events : List DomainEvent) : MemoryEntryAggregate :=
  events.foldl MemoryEntryAggregate.applyEvent blank

/-- One search-session mutator call. -/
inductive SessionOp where
  | addLayer (layer_type : String)
  | addResult (result_id : String) (confidence : ℚ)
  | complete (final_conf : ℚ)
  | fail (reason : String)
deriving DecidableEq, Repr

/-- Perform one timed mutator call. -/
def applySessionOp (a : SearchSessionAggregate) :
    SessionOp × Int → SearchSessionAggregate
  | (.addLayer t, now) => a.addLayer t now
  | (.addResult r conf, now) => a.addResult r conf now
  | (.complete conf, now) => a.complete conf now
  | (.fail reason, now) => a.fail reason now

/-- Perform a sequence of timed mutator calls. -/
def runSessionOps (a : SearchSessionAggregate)
    (ops : List (SessionOp × Int)) : SearchSessionAggregate :=
  ops.foldl applySessionOp a

/-- The layer types a trace adds (in order). -/
def opsLayerTypes (ops : List (SessionOp × Int)) : List String :=
  ops.filterMap (fun o => match o.1 with | .addLayer t => some t | _ => none)

/-- The result ids a trace adds (in order). -/
def opsResultIds (ops : List (SessionOp × Int)) : List String :=
  ops.filterMap (fun o => match o.1 with | .addResult r _ => some r | _ => none)

/-- One memory-entry mutator call. -/
inductive EntryOp where
  | updateSolution (new_solution reason : String)
  | addConflict (conflict_id strategy : String)
  | setConfidence (score : ℚ)
deriving DecidableEq, Repr

/-- Perform one timed entry mutator call. -/
def applyEntryOp (a : MemoryEntryAggregate) :
    EntryOp × Int → MemoryEntryAggregate
  | (.updateSolution n r, now) => a.updateSolution n r now
  | (.addConflict c s, now) => a.addConflict c s now
  | (.setConfidence q, now) => a.setConfidence q now

/-- Perform a sequence of timed entry mutator calls. -/
def runEntryOps (a : MemoryEntryAggregate)
    (ops : List (EntryOp × Int)) : MemoryEntryAggregate :=
  ops.foldl applyEntryOp a

/-- The conflict ids a trace adds (in order). -/
def opsConflictIds (ops : List (EntryOp × Int)) : List String :=
  ops.filterMap (fun o => match o.1 with | .addConflict c _ => some c | _ => none)

/-- The mutation-reachable observable state of a search session: every field
a mutator can change (`layers_used`, `result_ids`, `final_confidence`,
`session_status`, `completed_at`).  The remaining fields (`id`, `query`,
`started_at`) are populated only at construction, and `version` /
`uncommitted_events` are the event-sourcing bookkeeping that replay by
`applyEvent` deliberately does not drive. -/
def sessionObservable (a : SearchSessionAggregate) :
    List String × List String × ℚ × String × Int :=
  (a.layers_used, a.result_ids, a.final_confidence, a.session_status, a.completed_at)

/-- The mutation-reachable observable state of a memory entry (`solution`,
`confidence_score`, `conflict_ids`).  `updated_at` is initialised from the
construction clock (the replica is constructed at replay time), so it is
treated as construction-populated. -/
def entryObservable (a : MemoryEntryAggregate) : String × ℚ × List String :=
  (a.solution, a.confidence_score, a.conflict_ids)

/-! ## DomainMemoryEngine (domain_engine.cpp:306-470) -/

/-- Model of `DomainMemoryEngine` state: the inner enhanced engine, the two id-keyed
aggregate stores, and the sequence of events published to the bus (the bus
consumer and its handlers are outside every claim; `published` records the
`EventBus::publish` calls in order). -/
structure DomainMemoryEngine where
  engine : MemoryEngine
  memory_aggregates : List (String × MemoryEntryAggregate)
  search_aggregates : List (String × SearchSessionAggregate)
  published : List DomainEvent

/-- Association-list upsert for the aggregate stores. -/
def upsert {α : Type} (m : List (String × α)) (k : String) (v : α) :
    List (String × α) :=
  if (m.find? (fun e => e.1 == k)).isSome then
    m.map (fun e => if e.1 == k then (k, v) else e)
  else m ++ [(k, v)]

/-- Model of `DomainMemoryEngine::startSearchSession` (domain_engine.cpp:369-380):
create the aggregate, publish its uncommitted events
(`commitAggregateEvents` drains them), store it, return the id. -/
def DomainMemoryEngine.startSearchSession (d : DomainMemoryEngine)
    (query : String) (now : Int) : String × DomainMemoryEngine :=
  let a := SearchSessionAggregate.create query now
  (a.id,
    { d with
      published := d.published ++ a.uncommitted_events,
      search_aggregates := upsert d.search_aggregates a.id
        { a with uncommitted_events := [] } })

/-- Model of `DomainMemoryEngine::addSearchLayer` (domain_engine.cpp:382-394): missing
id returns false and changes nothing; otherwise mutate, commit, return
true. -/
def DomainMemoryEngine.addSearchLayer (d : DomainMemoryEngine)
    (session_id layer_type : String) (now : Int) : Bool × DomainMemoryEngine :=
  match List.lookup session_id d.search_aggregates with
  | none => (false, d)
  | some a =>
      let a2 := a.addLayer layer_type now
      (true,
        { d with
          published := d.published ++ a2.uncommitted_events,
          search_aggregates := upsert d.search_aggregates session_id
            { a2 with uncommitted_events := [] } })

/-- Model of `DomainMemoryEngine::completeSearchSession` (domain_engine.cpp:396-408):
missing id returns false; otherwise `complete` runs with no terminal-state
guard and the events are committed. -/
def DomainMemoryEngine.completeSearchSession (d : DomainMemoryEngine)
    (session_id : String) (confidence : ℚ) (now : Int) : Bool × DomainMemoryEngine :=
  match List.lookup session_id d.search_aggregates with
  | none => (false, d)
  | some a =>
      let a2 := a.complete confidence now
      (true,
        { d with
          published := d.published ++ a2.uncommitted_events,
          search_aggregates := upsert d.search_aggregates session_id
            { a2 with uncommitted_events := [] } })

/-- Model of `DomainMemoryEngine::updateMemoryEntry` (domain_engine.cpp:353-367). -/
def DomainMemoryEngine.updateMemoryEntry (d : DomainMemoryEngine)
    (entry_id new_solution reason : String) (now : Int) : Bool × DomainMemoryEngine :=
  match List.lookup entry_id d.memory_aggregates with
  | none => (false, d)
  | some a =>
      let a2 := a.updateSolution new_solution reason now
      (true,
        { d with
          published := d.published ++ a2.uncommitted_events,
          memory_aggregates := upsert d.memory_aggregates entry_id
            { a2 with uncommitted_events := [] } })

/-- Count of terminal search-session events in a stream. -/
def countTerminal (events : List DomainEvent) : Nat :=
  (events.filter (fun e =>
    e.event_type == "SearchSessionCompleted" || e.event_type == "SearchSessionFailed")).length

/-! ## Helper lemmas: capAppend -/

lemma capAppend_ne_nil (l : List Solution) (s : Solution) : capAppend l s ≠ [] := by
  simp only [capAppend]
  split_ifs with h
  · cases l with
    | nil => simp at h
    | cons a l2 => simp
  · simp

lemma capAppend_getLast? (l : List Solution) (s : Solution) :
    (capAppend l s).getLast? = some s := by
  simp only [capAppend]
  split_ifs with h
  · cases l with
    | nil => simp at h
    | cons a l2 => simp [List.getLast?_concat]
  · simp [List.getLast?_concat]

lemma capAppend_length_le (l : List Solution) (s : Solution) (h : l.length ≤ 5) :
    (capAppend l s).length ≤ 5 := by
  simp only [capAppend]
  split_ifs with h6
  · simp only [List.length_tail, List.length_append, List.length_cons,
      List.length_nil]
    omega
  · simp only [List.length_append, List.length_cons, List.length_nil] at h6 ⊢
    omega

lemma capAppend_of_length_five (l : List Solution) (s : Solution) (h : l.length = 5) :
    capAppend l s = l.tail ++ [s] := by
  simp only [capAppend]
  rw [if_pos (by simp [h])]
  cases l with
  | nil => simp at h
  | cons a l2 => simp

/-! ## Mutation traces for the cache-cap claim -/

/-- One `addSolution` call. -/
structure AddOp where
  problem : String
  sol : Solution
  is_global : Bool

/-- Run a sequence of `addSolution` calls. -/
def runAdds (c : SolutionCache) (ops : List AddOp) : SolutionCache :=
  ops.foldl (fun c o => c.addSolution o.problem o.sol o.is_global) c

/-- The most recently inserted solution for a key under a scope. -/
def lastInserted (ops : List AddOp) (p : String) (g : Bool) : Option Solution :=
  ((ops.filter (fun o => decide (o.problem = p ∧ o.is_global = g))).getLast?).map
    (fun o => o.sol)

lemma addSolution_scopeMap_same (c : SolutionCache) (p : String) (s : Solution)
    (g : Bool) : (c.addSolution p s g).scopeMap g p = capAppend (c.scopeMap g p) s := by
  cases g <;> simp [SolutionCache.addSolution, SolutionCache.scopeMap]

lemma addSolution_scopeMap_other (c : SolutionCache) (p : String) (s : Solution)
    (g : Bool) (q : String) (g' : Bool) (h : ¬(p = q ∧ g = g')) :
    (c.addSolution p s g).scopeMap g' q = c.scopeMap g' q := by
  cases g <;> cases g' <;>
    simp_all [SolutionCache.addSolution, SolutionCache.scopeMap] <;>
  · intro hq
    exact absurd hq.symm (by tauto)

lemma runAdds_invariant (ops : List AddOp) (p : String) (g : Bool) :
    ((runAdds emptyCache ops).scopeMap g p = [] ↔ lastInserted ops p g = none)
    ∧ ((runAdds emptyCache ops).scopeMap g p).getLast? = lastInserted ops p g
    ∧ ((runAdds emptyCache ops).scopeMap g p).length ≤ 5 := by
  induction ops using List.reverseRecOn with
  | nil => cases g <;> simp [runAdds, lastInserted, emptyCache, SolutionCache.scopeMap]
  | append_singleton ops o ih =>
      have hrun : runAdds emptyCache (ops ++ [o])
          = (runAdds emptyCache ops).addSolution o.problem o.sol o.is_global := by
        simp [runAdds, List.foldl_append]
      by_cases hmatch : o.problem = p ∧ o.is_global = g
      · obtain ⟨hp, hg⟩ := hmatch
        subst hp; subst hg
        have hsame := addSolution_scopeMap_same (runAdds emptyCache ops)
          o.problem o.sol o.is_global
        have hlast : lastInserted (ops ++ [o]) o.problem o.is_global = some o.sol := by
          simp [lastInserted, List.filter_append, List.getLast?_concat]
        rw [hrun, hsame, hlast]
        refine ⟨⟨fun h => absurd h (capAppend_ne_nil _ _), fun h => by cases h⟩, ?_, ?_⟩
        · exact capAppend_getLast? _ _
        · exact capAppend_length_le _ _ ih.2.2
      · have hother := addSolution_scopeMap_other (runAdds emptyCache ops)
          o.problem o.sol o.is_global p g hmatch
        have hlast : lastInserted (ops ++ [o]) p g = lastInserted ops p g := by
          simp only [lastInserted, List.filter_append]
          have hnil : List.filter (fun o2 => decide (o2.problem = p ∧ o2.is_global = g)) [o]
              = [] := by
            simp [List.filter, hmatch]
          rw [hnil, List.append_nil]
        rw [hrun, hother, hlast]
        exact ih

/-! ## Claim C7: cache cap invariant -/

/-- C7: after any sequence of `addSolution` calls on a `SolutionCache`, every
problem key held in either scope map has between 1 and 5 solutions, the last
element is the most recently inserted solution for that key and scope, and an
insertion into a full (5-element) sequence removes exactly the oldest (head)
element. -/
theorem cache_cap_invariant (ops : List AddOp) (p : String) (g : Bool)
    (c : SolutionCache) (s : Solution)
    (h5 : (c.scopeMap g p).length = 5) :
    ((runAdds emptyCache ops).scopeMap g p ≠ [] ↔ lastInserted ops p g ≠ none)
    ∧ ((runAdds emptyCache ops).scopeMap g p ≠ [] →
        1 ≤ ((runAdds emptyCache ops).scopeMap g p).length
        ∧ ((runAdds emptyCache ops).scopeMap g p).length ≤ 5
        ∧ ((runAdds emptyCache ops).scopeMap g p).getLast? = lastInserted ops p g)
    ∧ (c.addSolution p s g).scopeMap g p = (c.scopeMap g p).tail ++ [s] := by
  obtain ⟨h1, h2, h3⟩ := runAdds_invariant ops p g
  refine ⟨not_congr h1, fun hne => ⟨?_, h3, h2⟩, ?_⟩
  · exact Nat.succ_le_of_lt (List.length_pos.mpr hne)
  · rw [addSolution_scopeMap_same]
    exact capAppend_of_length_five _ _ h5

/-- A concrete 7-insertion trace for one problem key under the project
scope. -/
def solMark (n : Int) : Solution := ⟨"w", n, 1, "project"⟩

/-- Seven adds for the key "p". -/
def opsMark : List AddOp :=
  [⟨"p", solMark 1, false⟩, ⟨"p", solMark 2, false⟩, ⟨"p", solMark 3, false⟩,
   ⟨"p", solMark 4, false⟩, ⟨"p", solMark 5, false⟩, ⟨"p", solMark 6, false⟩,
   ⟨"p", solMark 7, false⟩]

/-- A cache whose project sequence for "p" is full. -/
def cacheMark : SolutionCache :=
  ⟨fun q => if q = "p" then [solMark 1, solMark 2, solMark 3, solMark 4, solMark 5]
    else [], fun _ => []⟩

theorem cache_cap_invariant_witness :
    ((runAdds emptyCache opsMark).scopeMap false "p" ≠ []
        ↔ lastInserted opsMark "p" false ≠ none)
    ∧ ((runAdds emptyCache opsMark).scopeMap false "p" ≠ [] →
        1 ≤ ((runAdds emptyCache opsMark).scopeMap false "p").length
        ∧ ((runAdds emptyCache opsMark).scopeMap false "p").length ≤ 5
        ∧ ((runAdds emptyCache opsMark).scopeMap false "p").getLast?
            = lastInserted opsMark "p" false)
    ∧ (cacheMark.addSolution "p" (solMark 6) false).scopeMap false "p"
        = (cacheMark.scopeMap false "p").tail ++ [solMark 6] :=
  cache_cap_invariant opsMark "p" false cacheMark (solMark 6) (by decide)

/-! ## Claim C10: clear leaves the categorizer intact -/

/-- C10: `MemoryEngine::clear` empties the category index and zeroes the
three counters, but does not touch the compiled pattern map of the categorizer, so
`categorizeError` answers identically before and after. -/
theorem clear_preserves_categorizer (e : MemoryEngine) (msg : String) :
    e.clear.category_index = [] ∧ e.clear.total_lookups = 0
    ∧ e.clear.cache_hits = 0 ∧ e.clear.total_lookup_time_us = 0
    ∧ e.clear.error_categorizer = e.error_categorizer
    ∧ e.clear.categorizeError msg = e.categorizeError msg := by
  simp [MemoryEngine.clear, MemoryEngine.categorizeError]

/-! ## Claim C9: storeSolution and the lookup counters -/

/-- C9: `storeSolution` returns true, leaves `total_lookups` and `cache_hits`
unchanged, and adds the measured duration of the call to `total_lookup_time_us`;
hence the `avg_lookup_time_us` statistic comes to include store time, while
only `findSolution` bumps `total_lookups`. -/
theorem store_time_counted_in_avg (e : MemoryEngine)
    (problem category content : String) (g : Bool) (now : Int) (dur : Nat) :
    (e.storeSolution problem category content g now dur).1 = true
    ∧ (e.storeSolution problem category content g now dur).2.total_lookups
        = e.total_lookups
    ∧ (e.storeSolution problem category content g now dur).2.cache_hits
        = e.cache_hits
    ∧ (e.storeSolution problem category content g now dur).2.total_lookup_time_us
        = addU64 e.total_lookup_time_us dur
    ∧ (0 < e.total_lookups → e.total_lookup_time_us + dur < 2 ^ 64 →
        (e.storeSolution problem category content g now dur).2.avgLookupTimeUs
          = (e.total_lookup_time_us + dur) / e.total_lookups)
    ∧ (∀ p2 c2 n2 d2,
        (e.findSolution p2 c2 n2 d2).2.total_lookups = addU64 e.total_lookups 1) := by
  refine ⟨rfl, rfl, rfl, rfl, fun hpos hlt => ?_, fun _ _ _ _ => rfl⟩
  have hmod : addU64 e.total_lookup_time_us dur = e.total_lookup_time_us + dur := by
    unfold addU64
    exact Nat.mod_eq_of_lt hlt
  simp [MemoryEngine.storeSolution, MemoryEngine.avgLookupTimeUs, hmod, hpos]

/-- An engine with two recorded lookups and 10 accumulated microseconds. -/
def engineMark : MemoryEngine := ⟨[], ⟨[]⟩, 2, 1, 10⟩

theorem store_time_counted_in_avg_witness :
    0 < engineMark.total_lookups
    ∧ engineMark.total_lookup_time_us + 5 < 2 ^ 64
    ∧ (engineMark.storeSolution "p" "c" "s" false 0 5).2.avgLookupTimeUs
        = (engineMark.total_lookup_time_us + 5) / engineMark.total_lookups :=
  ⟨by decide, by decide,
    (store_time_counted_in_avg engineMark "p" "c" "s" false 0 5).2.2.2.2.1
      (by decide) (by decide)⟩

/-! ## Claim C8: missing aggregate ids -/

/-- C8: when the id is absent from the corresponding aggregate store,
`updateMemoryEntry`, `addSearchLayer` and `completeSearchSession` return
false and leave the whole engine state — both stores and the stream of
published events — unchanged. -/
theorem missing_id_returns_false (d : DomainMemoryEngine)
    (entry_id session_id new_solution reason layer_type : String)
    (confidence : ℚ) (now : Int)
    (hm : List.lookup entry_id d.memory_aggregates = none)
    (hs : List.lookup session_id d.search_aggregates = none) :
    d.updateMemoryEntry entry_id new_solution reason now = (false, d)
    ∧ d.addSearchLayer session_id layer_type now = (false, d)
    ∧ d.completeSearchSession session_id confidence now = (false, d) := by
  refine ⟨?_, ?_, ?_⟩
  · simp [DomainMemoryEngine.updateMemoryEntry, hm]
  · simp [DomainMemoryEngine.addSearchLayer, hs]
  · simp [DomainMemoryEngine.completeSearchSession, hs]

/-- The empty engine and domain states. -/
def engine0 : MemoryEngine := ⟨[], ⟨[]⟩, 0, 0, 0⟩

/-- A domain engine with no aggregates and nothing published. -/
def domain0 : DomainMemoryEngine := ⟨engine0, [], [], []⟩

theorem missing_id_returns_false_witness :
    domain0.updateMemoryEntry "x" "n" "r" 0 = (false, domain0)
    ∧ domain0.addSearchLayer "y" "layer" 0 = (false, domain0)
    ∧ domain0.completeSearchSession "y" 1 0 = (false, domain0) :=
  missing_id_returns_false domain0 "x" "y" "n" "r" "layer" 1 0 rfl rfl

/-! ## Claim C2: terminal events are not guarded (evaluation) -/

/-- A session completed at t=2000 and then failed at t=3000. -/
def sessDone : SearchSessionAggregate :=
  (SearchSessionAggregate.create "q" 1000).complete 1 2000

/-- The unguarded `fail` after `complete`. -/
def sessDoneFailed : SearchSessionAggregate := sessDone.fail "boom" 3000

/-- C2 (behaviour at the failing input): after `complete`, a further `fail`
still succeeds — it overwrites the status and raises a second terminal event,
and at the engine level a second `completeSearchSession` on the same session
returns true and publishes a second `SearchSessionCompleted`, so the event
stream carries two terminal events where the claim requires exactly one. -/
theorem terminal_events_not_guarded :
    sessDone.session_status = "completed"
    ∧ sessDoneFailed.session_status = "failed"
    ∧ countTerminal sessDoneFailed.uncommitted_events = 2
    ∧ ((domain0.startSearchSession "q" 1000).2.completeSearchSession
        "search_1000" 1 2000).1 = true
    ∧ (((domain0.startSearchSession "q" 1000).2.completeSearchSession
        "search_1000" 1 2000).2.completeSearchSession "search_1000" 1 3000).1 = true
    ∧ countTerminal (((domain0.startSearchSession "q" 1000).2.completeSearchSession
        "search_1000" 1 2000).2.completeSearchSession "search_1000" 1 3000).2.published
        = 2 := by
  refine ⟨rfl, rfl, rfl, rfl, rfl, rfl⟩

/-! ## Claim C3: replay equivalence (counterexample at a duplicate layer) -/

/-- Adding the same layer type twice: the mutator appends unconditionally
(the live state gets the duplicate), while `applyEvent` de-duplicates both on
the live raise (the just-pushed entry is found, nothing more is appended) and
on replay (the second event is dropped). -/
def sessDupLayer : SearchSessionAggregate :=
  ((SearchSessionAggregate.create "q" 1000).addLayer "a" 1100).addLayer "a" 1200

/-- C3 counterexample: replaying the full event stream of a session that
added the layer type "a" twice onto a freshly constructed blank aggregate
yields `layers_used = ["a"]`, while the live aggregate holds `["a", "a"]` —
the observable states differ. -/
theorem replay_equivalence_counterexample :
    sessDupLayer.layers_used = ["a", "a"]
    ∧ (replaySession (SearchSessionAggregate.mk0 "search_1000" "q" 5000)
        sessDupLayer.uncommitted_events).layers_used = ["a"]
    ∧ sessionObservable (replaySession (SearchSessionAggregate.mk0 "search_1000" "q" 5000)
        sessDupLayer.uncommitted_events) ≠ sessionObservable sessDupLayer := by
  refine ⟨rfl, rfl, ?_⟩
  decide

/-! ## Helper lemmas: one-step equations for the session aggregate -/

lemma applyEvent_started (a : SearchSessionAggregate) (i : String) (d : EventData)
    (ts v : Int) : a.applyEvent ⟨i, "SearchSessionStarted", d, ts, v⟩ = a := by
  simp [SearchSessionAggregate.applyEvent]

lemma applyEvent_layer (a : SearchSessionAggregate) (i : String) (d : EventData)
    (ts v : Int) :
    a.applyEvent ⟨i, "LayerAdded", d, ts, v⟩
      = if dataLayerType d ∈ a.layers_used then a
        else { a with layers_used := a.layers_used ++ [dataLayerType d] } := by
  simp [SearchSessionAggregate.applyEvent]

lemma applyEvent_result (a : SearchSessionAggregate) (i : String) (d : EventData)
    (ts v : Int) :
    a.applyEvent ⟨i, "ResultAdded", d, ts, v⟩
      = if dataResultId d ∈ a.result_ids then a
        else { a with result_ids := a.result_ids ++ [dataResultId d] } := by
  simp [SearchSessionAggregate.applyEvent]

lemma applyEvent_completed (a : SearchSessionAggregate) (i : String) (d : EventData)
    (ts v : Int) :
    a.applyEvent ⟨i, "SearchSessionCompleted", d, ts, v⟩
      = { a with session_status := "completed",
                 final_confidence := dataFinalConfidence d, completed_at := ts } := by
  simp [SearchSessionAggregate.applyEvent]

lemma applyEvent_failed (a : SearchSessionAggregate) (i : String) (d : EventData)
    (ts v : Int) :
    a.applyEvent ⟨i, "SearchSessionFailed", d, ts, v⟩
      = { a with session_status := "failed", completed_at := ts } := by
  simp [SearchSessionAggregate.applyEvent]

lemma addLayer_eq (a : SearchSessionAggregate) (t : String) (now : Int) :
    a.addLayer t now
      = { a with layers_used := a.layers_used ++ [t],
                 version := a.version + 1,
                 uncommitted_events := a.uncommitted_events
                   ++ [⟨a.id, "LayerAdded",
                        .layerAdded t ((a.layers_used.length : Int) + 1),
                        now, a.version + 1⟩] } := by
  simp [SearchSessionAggregate.addLayer, SearchSessionAggregate.raiseEvent,
    applyEvent_layer, dataLayerType]

lemma addResult_eq (a : SearchSessionAggregate) (r : String) (conf : ℚ) (now : Int) :
    a.addResult r conf now
      = { a with result_ids := a.result_ids ++ [r],
                 version := a.version + 1,
                 uncommitted_events := a.uncommitted_events
                   ++ [⟨a.id, "ResultAdded",
                        .resultAdded r conf ((a.result_ids.length : Int) + 1),
                        now, a.version + 1⟩] } := by
  simp [SearchSessionAggregate.addResult, SearchSessionAggregate.raiseEvent,
    applyEvent_result, dataResultId]

lemma complete_eq (a : SearchSessionAggregate) (conf : ℚ) (now : Int) :
    a.complete conf now
      = { a with session_status := "completed", final_confidence := conf,
                 completed_at := now,
                 version := a.version + 1,
                 uncommitted_events := a.uncommitted_events
                   ++ [⟨a.id, "SearchSessionCompleted",
                        .searchSessionCompleted conf (now - a.started_at)
                          (a.layers_used.length : Int) (a.result_ids.length : Int),
                        now, a.version + 1⟩] } := by
  simp [SearchSessionAggregate.complete, SearchSessionAggregate.raiseEvent,
    applyEvent_completed, dataFinalConfidence]

lemma fail_eq (a : SearchSessionAggregate) (reason : String) (now : Int) :
    a.fail reason now
      = { a with session_status := "failed", completed_at := now,
                 version := a.version + 1,
                 uncommitted_events := a.uncommitted_events
                   ++ [⟨a.id, "SearchSessionFailed",
                        .searchSessionFailed reason (now - a.started_at),
                        now, a.version + 1⟩] } := by
  simp [SearchSessionAggregate.fail, SearchSessionAggregate.raiseEvent,
    applyEvent_failed]

lemma replaySession_append (blank : SearchSessionAggregate)
    (evs : List DomainEvent) (e : DomainEvent) :
    replaySession blank (evs ++ [e]) = (replaySession blank evs).applyEvent e := by
  simp [replaySession, List.foldl_append]

lemma opsLayerTypes_cons (op : SessionOp × Int) (rest : List (SessionOp × Int)) :
    opsLayerTypes (op :: rest)
      = (match op.1 with | .addLayer t => [t] | _ => []) ++ opsLayerTypes rest := by
  obtain ⟨o, _⟩ := op
  cases o <;> simp [opsLayerTypes]

lemma opsResultIds_cons (op : SessionOp × Int) (rest : List (SessionOp × Int)) :
    opsResultIds (op :: rest)
      = (match op.1 with | .addResult r _ => [r] | _ => []) ++ opsResultIds rest := by
  obtain ⟨o, _⟩ := op
  cases o <;> simp [opsResultIds]

lemma session_replay_aux (ops : List (SessionOp × Int)) :
    ∀ (blank a : SearchSessionAggregate),
    sessionObservable (replaySession blank a.uncommitted_events) = sessionObservable a →
    (a.layers_used ++ opsLayerTypes ops).Nodup →
    (a.result_ids ++ opsResultIds ops).Nodup →
    sessionObservable (replaySession blank (runSessionOps a ops).uncommitted_events)
      = sessionObservable (runSessionOps a ops) := by
  induction ops with
  | nil =>
      intro blank a hobs _ _
      simpa [runSessionOps] using hobs
  | cons op rest ih =>
      intro blank a hobs hl hr
      have h1 : (replaySession blank a.uncommitted_events).layers_used = a.layers_used :=
        congrArg (fun x => x.1) hobs
      have h2 : (replaySession blank a.uncommitted_events).result_ids = a.result_ids :=
        congrArg (fun x => x.2.1) hobs
      have h3 : (replaySession blank a.uncommitted_events).final_confidence
          = a.final_confidence := congrArg (fun x => x.2.2.1) hobs
      have h4 : (replaySession blank a.uncommitted_events).session_status
          = a.session_status := congrArg (fun x => x.2.2.2.1) hobs
      have h5 : (replaySession blank a.uncommitted_events).completed_at
          = a.completed_at := congrArg (fun x => x.2.2.2.2) hobs
      have hrun : runSessionOps a (op :: rest) = runSessionOps (applySessionOp a op) rest := by
        simp [runSessionOps]
      rw [hrun]
      obtain ⟨o, now⟩ := op
      cases o with
      | addLayer t =>
          have hfresh : t ∉ a.layers_used := by
            rw [opsLayerTypes_cons] at hl
            simp only [List.nodup_append] at hl
            exact fun hmem => hl.2.2 hmem (by simp)
          refine ih blank (applySessionOp a (.addLayer t, now)) ?_ ?_ ?_
          · show sessionObservable (replaySession blank (a.addLayer t now).uncommitted_events)
              = sessionObservable (a.addLayer t now)
            rw [addLayer_eq]
            simp only [replaySession_append, applyEvent_layer, dataLayerType]
            rw [h1, if_neg hfresh]
            simp [sessionObservable, h1, h2, h3, h4, h5]
          · show ((a.addLayer t now).layers_used ++ opsLayerTypes rest).Nodup
            rw [addLayer_eq]
            rw [opsLayerTypes_cons] at hl
            simpa [List.append_assoc] using hl
          · show ((a.addLayer t now).result_ids ++ opsResultIds rest).Nodup
            rw [addLayer_eq]
            rw [opsResultIds_cons] at hr
            simpa using hr
      | addResult r conf =>
          have hfresh : r ∉ a.result_ids := by
            rw [opsResultIds_cons] at hr
            simp only [List.nodup_append] at hr
            exact fun hmem => hr.2.2 hmem (by simp)
          refine ih blank (applySessionOp a (.addResult r conf, now)) ?_ ?_ ?_
          · show sessionObservable (replaySession blank (a.addResult r conf now).uncommitted_events)
              = sessionObservable (a.addResult r conf now)
            rw [addResult_eq]
            simp only [replaySession_append, applyEvent_result, dataResultId]
            rw [h2, if_neg hfresh]
            simp [sessionObservable, h1, h2, h3, h4, h5]
          · show ((a.addResult r conf now).layers_used ++ opsLayerTypes rest).Nodup
            rw [addResult_eq]
            rw [opsLayerTypes_cons] at hl
            simpa using hl
          · show ((a.addResult r conf now).result_ids ++ opsResultIds rest).Nodup
            rw [addResult_eq]
            rw [opsResultIds_cons] at hr
            simpa [List.append_assoc] using hr
      | complete conf =>
          refine ih blank (applySessionOp a (.complete conf, now)) ?_ ?_ ?_
          · show sessionObservable (replaySession blank (a.complete conf now).uncommitted_events)
              = sessionObservable (a.complete conf now)
            rw [complete_eq]
            simp only [replaySession_append, applyEvent_completed, dataFinalConfidence]
            simp [sessionObservable, h1, h2]
          · show ((a.complete conf now).layers_used ++ opsLayerTypes rest).Nodup
            rw [complete_eq]
            rw [opsLayerTypes_cons] at hl
            simpa using hl
          · show ((a.complete conf now).result_ids ++ opsResultIds rest).Nodup
            rw [complete_eq]
            rw [opsResultIds_cons] at hr
            simpa using hr
      | fail reason =>
          refine ih blank (applySessionOp a (.fail reason, now)) ?_ ?_ ?_
          · show sessionObservable (replaySession blank (a.fail reason now).uncommitted_events)
              = sessionObservable (a.fail reason now)
            rw [fail_eq]
            simp only [replaySession_append, applyEvent_failed]
            simp [sessionObservable, h1, h2, h3]
          · show ((a.fail reason now).layers_used ++ opsLayerTypes rest).Nodup
            rw [fail_eq]
            rw [opsLayerTypes_cons] at hl
            simpa using hl
          · show ((a.fail reason now).result_ids ++ opsResultIds rest).Nodup
            rw [fail_eq]
            rw [opsResultIds_cons] at hr
            simpa using hr

/-! ## Helper lemmas: one-step equations for the memory-entry aggregate -/

lemma applyEvent_mem_created (a : MemoryEntryAggregate) (i : String) (d : EventData)
    (ts v : Int) : a.applyEvent ⟨i, "MemoryEntryCreated", d, ts, v⟩ = a := by
  simp [MemoryEntryAggregate.applyEvent]

lemma applyEvent_mem_updated (a : MemoryEntryAggregate) (i : String) (d : EventData)
    (ts v : Int) :
    a.applyEvent ⟨i, "MemoryEntryUpdated", d, ts, v⟩
      = { a with solution := dataNewSolution d, updated_at := ts } := by
  simp [MemoryEntryAggregate.applyEvent]

lemma applyEvent_mem_conflict (a : MemoryEntryAggregate) (i : String) (d : EventData)
    (ts v : Int) :
    a.applyEvent ⟨i, "ConflictDetected", d, ts, v⟩
      = if dataConflictId d ∈ a.conflict_ids then a
        else { a with conflict_ids := a.conflict_ids ++ [dataConflictId d] } := by
  simp [MemoryEntryAggregate.applyEvent]

lemma applyEvent_mem_confidence (a : MemoryEntryAggregate) (i : String) (d : EventData)
    (ts v : Int) :
    a.applyEvent ⟨i, "ConfidenceUpdated", d, ts, v⟩
      = { a with confidence_score := dataNewConfidence d } := by
  simp [MemoryEntryAggregate.applyEvent]

lemma updateSolution_eq (a : MemoryEntryAggregate) (n r : String) (now : Int) :
    a.updateSolution n r now
      = { a with solution := n, updated_at := now,
                 version := a.version + 1,
                 uncommitted_events := a.uncommitted_events
                   ++ [⟨a.id, "MemoryEntryUpdated", .memoryEntryUpdated a.solution n r,
                        now, a.version + 1⟩] } := by
  simp [MemoryEntryAggregate.updateSolution, MemoryEntryAggregate.raiseEvent,
    applyEvent_mem_updated, dataNewSolution]

lemma addConflict_eq (a : MemoryEntryAggregate) (cid strat : String) (now : Int) :
    a.addConflict cid strat now
      = { a with conflict_ids := a.conflict_ids ++ [cid],
                 version := a.version + 1,
                 uncommitted_events := a.uncommitted_events
                   ++ [⟨a.id, "ConflictDetected",
                        .conflictDetected cid strat ((a.conflict_ids.length : Int) + 1),
                        now, a.version + 1⟩] } := by
  simp [MemoryEntryAggregate.addConflict, MemoryEntryAggregate.raiseEvent,
    applyEvent_mem_conflict, dataConflictId]

lemma setConfidence_eq (a : MemoryEntryAggregate) (q : ℚ) (now : Int) :
    a.setConfidence q now
      = { a with confidence_score := q,
                 version := a.version + 1,
                 uncommitted_events := a.uncommitted_events
                   ++ [⟨a.id, "ConfidenceUpdated",
                        .confidenceUpdated a.confidence_score q,
                        now, a.version + 1⟩] } := by
  simp [MemoryEntryAggregate.setConfidence, MemoryEntryAggregate.raiseEvent,
    applyEvent_mem_confidence, dataNewConfidence]

lemma replayEntry_append (blank : MemoryEntryAggregate)
    (evs : List DomainEvent) (e : DomainEvent) :
    replayEntry blank (evs ++ [e]) = (replayEntry blank evs).applyEvent e := by
  simp [replayEntry, List.foldl_append]

lemma opsConflictIds_cons (op : EntryOp × Int) (rest : List (EntryOp × Int)) :
    opsConflictIds (op :: rest)
      = (match op.1 with | .addConflict c _ => [c] | _ => []) ++ opsConflictIds rest := by
  obtain ⟨o, _⟩ := op
  cases o <;> simp [opsConflictIds]

lemma entry_replay_aux (ops : List (EntryOp × Int)) :
    ∀ (blank a : MemoryEntryAggregate),
    entryObservable (replayEntry blank a.uncommitted_events) = entryObservable a →
    (a.conflict_ids ++ opsConflictIds ops).Nodup →
    entryObservable (replayEntry blank (runEntryOps a ops).uncommitted_events)
      = entryObservable (runEntryOps a ops) := by
  induction ops with
  | nil =>
      intro blank a hobs _
      simpa [runEntryOps] using hobs
  | cons op rest ih =>
      intro blank a hobs hc
      have h1 : (replayEntry blank a.uncommitted_events).solution = a.solution :=
        congrArg (fun x => x.1) hobs
      have h2 : (replayEntry blank a.uncommitted_events).confidence_score
          = a.confidence_score := congrArg (fun x => x.2.1) hobs
      have h3 : (replayEntry blank a.uncommitted_events).conflict_ids
          = a.conflict_ids := congrArg (fun x => x.2.2) hobs
      have hrun : runEntryOps a (op :: rest) = runEntryOps (applyEntryOp a op) rest := by
        simp [runEntryOps]
      rw [hrun]
      obtain ⟨o, now⟩ := op
      cases o with
      | updateSolution n r =>
          refine ih blank (applyEntryOp a (.updateSolution n r, now)) ?_ ?_
          · show entryObservable (replayEntry blank (a.updateSolution n r now).uncommitted_events)
              = entryObservable (a.updateSolution n r now)
            rw [updateSolution_eq]
            simp only [replayEntry_append, applyEvent_mem_updated, dataNewSolution]
            simp [entryObservable, h2, h3]
          · show ((a.updateSolution n r now).conflict_ids ++ opsConflictIds rest).Nodup
            rw [updateSolution_eq]
            rw [opsConflictIds_cons] at hc
            simpa using hc
      | addConflict cid strat =>
          have hfresh : cid ∉ a.conflict_ids := by
            rw [opsConflictIds_cons] at hc
            simp only [List.nodup_append] at hc
            exact fun hmem => hc.2.2 hmem (by simp)
          refine ih blank (applyEntryOp a (.addConflict cid strat, now)) ?_ ?_
          · show entryObservable (replayEntry blank (a.addConflict cid strat now).uncommitted_events)
              = entryObservable (a.addConflict cid strat now)
            rw [addConflict_eq]
            simp only [replayEntry_append, applyEvent_mem_conflict, dataConflictId]
            rw [h3, if_neg hfresh]
            simp [entryObservable, h1, h2, h3]
          · show ((a.addConflict cid strat now).conflict_ids ++ opsConflictIds rest).Nodup
            rw [addConflict_eq]
            rw [opsConflictIds_cons] at hc
            simpa [List.append_assoc] using hc
      | setConfidence q =>
          refine ih blank (applyEntryOp a (.setConfidence q, now)) ?_ ?_
          · show entryObservable (replayEntry blank (a.setConfidence q now).uncommitted_events)
              = entryObservable (a.setConfidence q now)
            rw [setConfidence_eq]
            simp only [replayEntry_append, applyEvent_mem_confidence, dataNewConfidence]
            simp [entryObservable, h1, h3]
          · show ((a.setConfidence q now).conflict_ids ++ opsConflictIds rest).Nodup
            rw [setConfidence_eq]
            rw [opsConflictIds_cons] at hc
            simpa using hc

lemma create_session_eq (query : String) (now : Int) :
    SearchSessionAggregate.create query now
      = ⟨"search_" ++ toString now, 1,
         [⟨"search_" ++ toString now, "SearchSessionStarted",
           .searchSessionStarted query (now.tdiv 1000), now, 1⟩],
         query, [], [], now, 0, 0, "active"⟩ := by
  simp [SearchSessionAggregate.create, SearchSessionAggregate.mk0,
    SearchSessionAggregate.raiseEvent, applyEvent_started]

lemma create_entry_eq (problem solution category : String) (now : Int) :
    MemoryEntryAggregate.create problem solution category now
      = ⟨"mem_" ++ toString now, 1,
         [⟨"mem_" ++ toString now, "MemoryEntryCreated",
           .memoryEntryCreated problem solution category, now, 1⟩],
         problem, solution, category, now, now, 0, []⟩ := by
  simp [MemoryEntryAggregate.create, MemoryEntryAggregate.mk0,
    MemoryEntryAggregate.raiseEvent, applyEvent_mem_created]

/-- C3 (amended): for every mutation trace in which the added layer types,
result ids and conflict ids are pairwise distinct, replaying the entire
raised event stream of an aggregate onto a freshly constructed blank aggregate (same
id and creation arguments, constructed at any time `t0`) reproduces the mutation-reachable
state of the live aggregate — for both aggregate kinds.  (Without
the distinctness hypothesis the equivalence fails: the live mutators append
duplicates while replay de-duplicates; see the counterexample.) -/
theorem replay_equivalence_amended :
    (∀ (query : String) (now0 t0 : Int) (ops : List (SessionOp × Int)),
      (opsLayerTypes ops).Nodup → (opsResultIds ops).Nodup →
      sessionObservable (replaySession
          (SearchSessionAggregate.mk0 ("search_" ++ toString now0) query t0)
          (runSessionOps (SearchSessionAggregate.create query now0) ops).uncommitted_events)
        = sessionObservable (runSessionOps (SearchSessionAggregate.create query now0) ops))
    ∧ (∀ (problem solution category : String) (now0 t0 : Int) (ops : List (EntryOp × Int)),
      (opsConflictIds ops).Nodup →
      entryObservable (replayEntry
          (MemoryEntryAggregate.mk0 ("mem_" ++ toString now0) problem solution category t0)
          (runEntryOps (MemoryEntryAggregate.create problem solution category now0) ops).uncommitted_events)
        = entryObservable (runEntryOps (MemoryEntryAggregate.create problem solution category now0) ops)) := by
  constructor
  · intro query now0 t0 ops hl hr
    apply session_replay_aux
    · simp [create_session_eq, replaySession, applyEvent_started, sessionObservable,
        SearchSessionAggregate.mk0]
    · simpa [create_session_eq] using hl
    · simpa [create_session_eq] using hr
  · intro problem solution category now0 t0 ops hc
    apply entry_replay_aux
    · simp [create_entry_eq, replayEntry, applyEvent_mem_created, entryObservable,
        MemoryEntryAggregate.mk0]
    · simpa [create_entry_eq] using hc

/-- A duplicate-free session trace. -/
def opsSessMark : List (SessionOp × Int) :=
  [(.addLayer "a", 1100), (.addResult "r1" 1, 1200), (.complete 1, 1300)]

/-- A duplicate-free entry trace. -/
def opsEntryMark : List (EntryOp × Int) :=
  [(.updateSolution "s2" "better", 1100), (.addConflict "c1" "newer", 1200),
   (.setConfidence 1, 1300)]

theorem replay_equivalence_amended_witness :
    sessionObservable (replaySession
        (SearchSessionAggregate.mk0 ("search_" ++ toString (1000 : Int)) "q" 5000)
        (runSessionOps (SearchSessionAggregate.create "q" 1000) opsSessMark).uncommitted_events)
      = sessionObservable (runSessionOps (SearchSessionAggregate.create "q" 1000) opsSessMark)
    ∧ entryObservable (replayEntry
        (MemoryEntryAggregate.mk0 ("mem_" ++ toString (1000 : Int)) "p" "s" "c" 5000)
        (runEntryOps (MemoryEntryAggregate.create "p" "s" "c" 1000) opsEntryMark).uncommitted_events)
      = entryObservable (runEntryOps (MemoryEntryAggregate.create "p" "s" "c" 1000) opsEntryMark) :=
  ⟨replay_equivalence_amended.1 "q" 1000 5000 opsSessMark (by decide) (by decide),
   replay_equivalence_amended.2 "p" "s" "c" 1000 5000 opsEntryMark (by decide)⟩

/-! ## Helper lemmas: scorer bounds -/

lemma qIteNonneg {c : Prop} [Decidable c] {a b : ℚ} (ha : 0 ≤ a) (hb : 0 ≤ b) :
    0 ≤ if c then a else b := by
  split_ifs <;> assumption

lemma scoreCompleteness_bounds (content : String) :
    0 ≤ scoreCompleteness content ∧ scoreCompleteness content ≤ 1 := by
  simp only [scoreCompleteness]
  refine ⟨le_min (by norm_num) ?_, min_le_left _ _⟩
  refine add_nonneg (add_nonneg (add_nonneg (add_nonneg ?_ ?_) ?_) ?_) ?_ <;>
    exact qIteNonneg (by norm_num) le_rfl

lemma scoreClarity_bounds (content : String) :
    0 ≤ scoreClarity content ∧ scoreClarity content ≤ 1 := by
  simp only [scoreClarity]
  exact ⟨le_max_left _ _, max_le (by norm_num) (min_le_left _ _)⟩

lemma scoreSpecificity_bounds (content ctx : String) :
    0 ≤ scoreSpecificity content ctx ∧ scoreSpecificity content ctx ≤ 1 := by
  simp only [scoreSpecificity]
  refine ⟨le_min (by norm_num) ?_, min_le_left _ _⟩
  refine add_nonneg (add_nonneg (by norm_num) ?_) ?_
  · exact qIteNonneg (by positivity) le_rfl
  · exact qIteNonneg (by norm_num) le_rfl

lemma scoreReliability_bounds (sol : Solution) (usage : List (String × Int)) (now : Int) :
    0 ≤ scoreReliability sol usage now ∧ scoreReliability sol usage now ≤ 1 := by
  simp only [scoreReliability]
  exact ⟨le_max_left _ _, max_le (by norm_num) (min_le_left _ _)⟩

lemma scoreContextRelevance_bounds (content ctx : String) :
    0 ≤ scoreContextRelevance content ctx ∧ scoreContextRelevance content ctx ≤ 1 := by
  simp only [scoreContextRelevance]
  refine ⟨le_min (by norm_num) ?_, min_le_left _ _⟩
  refine add_nonneg (add_nonneg (by norm_num) ?_) ?_ <;>
    exact qIteNonneg (by norm_num) le_rfl

/-! ## Claim C6: score bounds and the combined formula -/

/-- C6: every `SolutionScorer` sub-score lies in [0,1], and the combined
score produced by `scoreSolution` equals
0.25·completeness + 0.20·clarity + 0.25·specificity + 0.15·reliability +
0.15·context_relevance, which also lies in [0,1]. -/
theorem score_bounds (sol : Solution) (ctx : String)
    (usage : List (String × Int)) (now : Int) :
    (0 ≤ scoreCompleteness sol.content ∧ scoreCompleteness sol.content ≤ 1)
    ∧ (0 ≤ scoreClarity sol.content ∧ scoreClarity sol.content ≤ 1)
    ∧ (0 ≤ scoreSpecificity sol.content ctx ∧ scoreSpecificity sol.content ctx ≤ 1)
    ∧ (0 ≤ scoreReliability sol usage now ∧ scoreReliability sol usage now ≤ 1)
    ∧ (0 ≤ scoreContextRelevance sol.content ctx
        ∧ scoreContextRelevance sol.content ctx ≤ 1)
    ∧ scoreSolution sol ctx usage now
        = 0.25 * scoreCompleteness sol.content + 0.20 * scoreClarity sol.content
          + 0.25 * scoreSpecificity sol.content ctx
          + 0.15 * scoreReliability sol usage now
          + 0.15 * scoreContextRelevance sol.content ctx
    ∧ 0 ≤ scoreSolution sol ctx usage now ∧ scoreSolution sol ctx usage now ≤ 1 := by
  obtain ⟨c0, c1⟩ := scoreCompleteness_bounds sol.content
  obtain ⟨l0, l1⟩ := scoreClarity_bounds sol.content
  obtain ⟨s0, s1⟩ := scoreSpecificity_bounds sol.content ctx
  obtain ⟨r0, r1⟩ := scoreReliability_bounds sol usage now
  obtain ⟨x0, x1⟩ := scoreContextRelevance_bounds sol.content ctx
  have hcomb : scoreSolution sol ctx usage now
      = 0.25 * scoreCompleteness sol.content + 0.20 * scoreClarity sol.content
        + 0.25 * scoreSpecificity sol.content ctx
        + 0.15 * scoreReliability sol usage now
        + 0.15 * scoreContextRelevance sol.content ctx := by
    simp only [scoreSolution, getDetailedMetrics, QualityMetrics.combined_score]
    ring
  refine ⟨⟨c0, c1⟩, ⟨l0, l1⟩, ⟨s0, s1⟩, ⟨r0, r1⟩, ⟨x0, x1⟩, hcomb, ?_, ?_⟩
  · rw [hcomb]; positivity
  · rw [hcomb]; nlinarith

/-! ## Helper lemmas: conflict resolution -/

lemma mem_of_getLastSome {α : Type} {l : List α} {a : α}
    (h : l.getLast? = some a) : a ∈ l := by
  obtain ⟨hne, he⟩ := List.mem_getLast?_eq_getLast (Option.mem_def.mpr h)
  rw [he]
  exact List.getLast_mem hne

lemma ageDiffDays_eq (pt gt : Int) :
    ageDiffDays pt gt = (pt - gt).natAbs / 86400 := by
  unfold ageDiffDays
  rw [Int.natAbs_tdiv]
  show (pt - gt).natAbs / (3600 : Int).natAbs / 24 = (pt - gt).natAbs / 86400
  rw [Nat.div_div_eq_div_mul]
  norm_num

lemma useRatioGt3_iff (p g : Int) (hp : 1 ≤ p) (hg : 1 ≤ g) :
    useRatioGt3 p g = true
      ↔ (3 : ℚ) < ((max p g : Int) : ℚ) / ((min p g : Int) : ℚ) := by
  have hmn : (1 : Int) ≤ min p g := le_min hp hg
  have hq : (0 : ℚ) < ((min p g : Int) : ℚ) := by
    have h0 : (0 : Int) < min p g := by omega
    exact_mod_cast h0
  unfold useRatioGt3
  rw [if_pos (by omega : (0 : Int) < min p g), decide_eq_true_eq, lt_div_iff₀ hq]
  have hcast : (3 : ℚ) * ((min p g : Int) : ℚ) = ((3 * min p g : Int) : ℚ) := by
    push_cast
    ring
  rw [hcast]
  exact_mod_cast Iff.rfl

/-! ## Claim C1: findSolution implements the specified decision procedure -/

/-- C1: `SolutionCache::findSolution` implements exactly the specified
conflict-resolution procedure, evaluated in order with a single now per
call — given the own invariant of the code that stored use counts are at least 1
(every constructed `Solution` has `use_count = 1`), under which the specified
floating-point ratio test is well defined. -/
theorem conflict_resolution_matches_spec (c : SolutionCache) (now : Int)
    (problem : String)
    (hp : ∀ s ∈ c.project_solutions problem, 1 ≤ s.use_count)
    (hg : ∀ s ∈ c.global_solutions problem, 1 ≤ s.use_count) :
    c.findSolution now problem = findSolutionSpec c now problem := by
  simp only [SolutionCache.findSolution, findSolutionSpec]
  cases hpe : (c.project_solutions problem).getLast? with
  | none =>
      cases hge : (c.global_solutions problem).getLast? with
      | none => rfl
      | some gs => rfl
  | some ps =>
      cases hge : (c.global_solutions problem).getLast? with
      | none => rfl
      | some gs =>
          dsimp only
          have h1p : 1 ≤ ps.use_count := hp ps (mem_of_getLastSome hpe)
          have h1g : 1 ≤ gs.use_count := hg gs (mem_of_getLastSome hge)
          by_cases h30 : now - 30 * 86400 < ps.created_date
          · rw [if_pos h30, if_pos h30]
          rw [if_neg h30, if_neg h30, ageDiffDays_eq]
          by_cases h90 : 90 < (ps.created_date - gs.created_date).natAbs / 86400
          · rw [if_pos h90, if_pos h90]
            have hne : ps.created_date ≠ gs.created_date := by
              intro he
              rw [he] at h90
              simp at h90
            by_cases hlt : gs.created_date < ps.created_date
            · rw [if_pos hlt, if_pos hlt]
            · rw [if_neg hlt, if_neg hlt, if_pos (by omega : ps.created_date < gs.created_date)]
          rw [if_neg h90, if_neg h90]
          by_cases hrt : useRatioGt3 ps.use_count gs.use_count = true
          · rw [if_pos hrt, if_pos ((useRatioGt3_iff _ _ h1p h1g).mp hrt)]
            have hne : ps.use_count ≠ gs.use_count := by
              intro he
              unfold useRatioGt3 at hrt
              rw [he, if_pos (by omega : (0 : Int) < min gs.use_count gs.use_count)] at hrt
              have := of_decide_eq_true hrt
              omega
            by_cases hlt : gs.use_count < ps.use_count
            · rw [if_pos hlt, if_pos hlt]
            · rw [if_neg hlt, if_neg hlt, if_pos (by omega : ps.use_count < gs.use_count)]
          · rw [if_neg hrt, if_neg (fun hq => hrt ((useRatioGt3_iff _ _ h1p h1g).mpr hq))]

/-- A cache exercising the popularity rule: both candidates 120 days old,
use counts 1 and 4. -/
def cacheRatioMark : SolutionCache :=
  ⟨fun q => if q = "p" then [⟨"proj fix", 1000000, 1, "project"⟩] else [],
   fun q => if q = "p" then [⟨"glob fix", 1003600, 4, "global"⟩] else []⟩

theorem conflict_resolution_matches_spec_witness :
    cacheRatioMark.findSolution 12000000 "p"
      = findSolutionSpec cacheRatioMark 12000000 "p" :=
  conflict_resolution_matches_spec cacheRatioMark 12000000 "p"
    (by decide) (by decide)

/-! ## Helper lemmas: the stable descending sort -/

lemma insertDescStable_perm (x : ConflictResult × ℚ) (l : List (ConflictResult × ℚ)) :
    (insertDescStable x l).Perm (x :: l) := by
  induction l with
  | nil => exact List.Perm.refl _
  | cons y ys ih =>
      unfold insertDescStable
      split_ifs with h
      · exact (ih.cons y).trans (List.Perm.swap x y ys)
      · exact List.Perm.refl _

lemma stableSortDesc_perm (l : List (ConflictResult × ℚ)) :
    (stableSortDesc l).Perm l := by
  induction l with
  | nil => exact List.Perm.refl _
  | cons x xs ih => exact (insertDescStable_perm x (stableSortDesc xs)).trans (ih.cons x)

lemma insertDescStable_sorted (x : ConflictResult × ℚ)
    (l : List (ConflictResult × ℚ)) (h : sortedDesc l) :
    sortedDesc (insertDescStable x l) := by
  induction l with
  | nil => simp [insertDescStable, sortedDesc]
  | cons y ys ih =>
      have hy : ∀ b ∈ ys, b.2 ≤ y.2 := (List.sorted_cons.mp h).1
      have hys : sortedDesc ys := (List.sorted_cons.mp h).2
      unfold insertDescStable
      split_ifs with hxy
      · rw [sortedDesc, List.sorted_cons]
        refine ⟨?_, ih hys⟩
        intro b hb
        rcases List.mem_cons.mp ((insertDescStable_perm x ys).mem_iff.mp hb) with rfl | hb2
        · exact le_of_lt hxy
        · exact hy b hb2
      · rw [sortedDesc, List.sorted_cons]
        refine ⟨?_, h⟩
        intro b hb
        rcases List.mem_cons.mp hb with rfl | hb2
        · exact not_lt.mp hxy
        · exact le_trans (hy b hb2) (not_lt.mp hxy)

lemma stableSortDesc_sorted (l : List (ConflictResult × ℚ)) :
    sortedDesc (stableSortDesc l) := by
  induction l with
  | nil => simp [stableSortDesc, sortedDesc]
  | cons x xs ih => exact insertDescStable_sorted x (stableSortDesc xs) ih

lemma sortedDesc_map {l : List (ConflictResult × ℚ)} (h : sortedDesc l) :
    (l.map (fun rs => rs.2)).Sorted (fun a b : ℚ => b ≤ a) :=
  List.Pairwise.map _ (fun _ _ hab => hab) h

instance : IsAntisymm ℚ (fun a b : ℚ => b ≤ a) :=
  ⟨fun a b h1 h2 => le_antisymm h2 h1⟩

/-! ## Claim C4 (amended): findRankedSolutions output characterisation -/

/-- C4 (amended): for a non-negative bound, every output `std::sort` may
produce is sorted descending by score, has length `min max #candidates`, and
its score sequence is exactly that of the claimed stable sort — but the
relative order of equal-score candidates is not the stable one in general,
because `std::sort` does not guarantee stability (see the counterexample). -/
theorem ranked_solutions_sorted_truncated (e : MemoryEngine)
    (problem category : String) (maxs now : Int)
    (out : List (ConflictResult × ℚ))
    (hmax : 0 ≤ maxs) (h : FindRankedResult e problem category maxs now out) :
    sortedDesc out
    ∧ out.length = min maxs.toNat (scoredCandidates e problem category now).length
    ∧ out.map (fun rs => rs.2)
        = (findRankedSolutionsSpec e problem category maxs now).map (fun rs => rs.2) := by
  obtain ⟨s, hperm, hsort, hout⟩ := h
  have hsLen : s.length = (scoredCandidates e problem category now).length :=
    hperm.length_eq
  have hstPerm : (stableSortDesc (scoredCandidates e problem category now)).Perm
      (scoredCandidates e problem category now) := stableSortDesc_perm _
  have hstLen : (stableSortDesc (scoredCandidates e problem category now)).length
      = s.length := by rw [hstPerm.length_eq, hsLen]
  have hmapEq : s.map (fun rs => rs.2)
      = (stableSortDesc (scoredCandidates e problem category now)).map (fun rs => rs.2) := by
    have hs1 := sortedDesc_map hsort
    have hs2 := sortedDesc_map (stableSortDesc_sorted (scoredCandidates e problem category now))
    exact List.eq_of_perm_of_sorted ((hperm.trans hstPerm.symm).map _) hs1 hs2
  refine ⟨?_, ?_, ?_⟩
  · rw [hout]
    unfold limitResults
    split_ifs with hc
    · exact List.Pairwise.sublist (List.take_sublist _ _) hsort
    · exact hsort
  · rw [hout]
    unfold limitResults
    split_ifs with hc
    · simp only [List.length_take]
      omega
    · rw [hsLen] at hc ⊢
      omega
  · rw [hout]
    unfold findRankedSolutionsSpec limitResults
    rw [hstLen]
    split_ifs with hc
    · rw [List.map_take, List.map_take, hmapEq]
    · exact hmapEq

/-- The trivially rankable empty engine input. -/
theorem ranked_solutions_sorted_truncated_witness :
    (0 : Int) ≤ 5
    ∧ (sortedDesc ([] : List (ConflictResult × ℚ))
       ∧ ([] : List (ConflictResult × ℚ)).length
           = min (5 : Int).toNat (scoredCandidates engine0 "p" "" 0).length
       ∧ ([] : List (ConflictResult × ℚ)).map (fun rs => rs.2)
           = (findRankedSolutionsSpec engine0 "p" "" 5 0).map (fun rs => rs.2)) :=
  ⟨by norm_num,
   ranked_solutions_sorted_truncated engine0 "p" "" 5 0 [] (by norm_num)
     ⟨[], by rw [show scoredCandidates engine0 "p" "" 0 = [] from rfl],
      by simp [sortedDesc], by simp [limitResults]⟩⟩

/-! ## Concrete score evaluations shared by the counterexample inputs -/

/-- First stored project solution ("a"). -/
def solRankA : Solution := ⟨"a", 1000, 1, "project"⟩

/-- Second stored project solution ("b"). -/
def solRankB : Solution := ⟨"b", 1000, 1, "project"⟩

lemma scoreSolRankA : scoreSolution solRankA "p" [] 1000 = 0.255 := by
  simp only [scoreSolution, getDetailedMetrics, QualityMetrics.combined_score,
    scoreCompleteness, scoreClarity, scoreSpecificity, scoreReliability,
    scoreContextRelevance, solRankA]
  norm_num +decide [min_def, max_def]

lemma scoreSolRankB : scoreSolution solRankB "p" [] 1000 = 0.255 := by
  simp only [scoreSolution, getDetailedMetrics, QualityMetrics.combined_score,
    scoreCompleteness, scoreClarity, scoreSpecificity, scoreReliability,
    scoreContextRelevance, solRankB]
  norm_num +decide [min_def, max_def]

/-! ## Claim C4: counterexample to the stability part -/

/-- A cache holding the two equal-scoring project solutions for "p". -/
def cacheRank : SolutionCache :=
  ⟨fun q => if q = "p" then [solRankA, solRankB] else [], fun _ => []⟩

/-- An engine whose uncategorised bucket is that cache. -/
def engineRank : MemoryEngine := ⟨[("errors_uncategorised", cacheRank)], ⟨[]⟩, 0, 0, 0⟩

/-- The wrapping `findRankedSolutions` applies to each candidate. -/
def rankedPair (s : Solution) (q : ℚ) : ConflictResult × ℚ :=
  (⟨s, .default_local_preference, "AI-ranked result"⟩, q)

/-- The two candidates in the opposite of their pre-sort order. -/
def outSwapped : List (ConflictResult × ℚ) :=
  [rankedPair solRankB 0.255, rankedPair solRankA 0.255]

/-- C4 counterexample: both candidates score 0.255, so the comparator-sorted
permutation that swaps them is a permitted `std::sort` outcome, yet it
differs from the stable sort the claim promises (which must keep the
project-oldest-first pre-sort order). -/
theorem ranked_stable_sort_counterexample :
    FindRankedResult engineRank "p" "" 5 1000 outSwapped
    ∧ outSwapped ≠ findRankedSolutionsSpec engineRank "p" "" 5 1000 := by
  have hsc : scoredCandidates engineRank "p" "" 1000
      = [rankedPair solRankA (scoreSolution solRankA "p" [] 1000),
         rankedPair solRankB (scoreSolution solRankB "p" [] 1000)] := rfl
  rw [scoreSolRankA, scoreSolRankB] at hsc
  have hstable : stableSortDesc
      [rankedPair solRankA 0.255, rankedPair solRankB 0.255]
      = [rankedPair solRankA 0.255, rankedPair solRankB 0.255] := by
    simp [stableSortDesc, insertDescStable, rankedPair]
  have hspec : findRankedSolutionsSpec engineRank "p" "" 5 1000
      = [rankedPair solRankA 0.255, rankedPair solRankB 0.255] := by
    unfold findRankedSolutionsSpec
    rw [hsc, hstable]
    simp [limitResults]
  constructor
  · refine ⟨outSwapped, ?_, ?_, ?_⟩
    · rw [hsc]
      exact List.Perm.swap _ _ []
    · simp [sortedDesc, outSwapped, rankedPair, List.sorted_cons]
    · simp [limitResults, outSwapped]
  · rw [hspec]
    intro h
    have hh := congrArg (fun l => l.head?.map (fun rs => rs.1.solution.content)) h
    simp only [outSwapped, rankedPair, solRankA, solRankB, List.head?,
      Option.map_some] at hh
    exact absurd hh (by decide)

/-! ## Claim C5: getSuggestions emits invalid JSON for quote-bearing content -/

/-- A stored solution whose content contains a double quote. -/
def solQuote : Solution := ⟨"a\"b", 1000, 1, "project"⟩

/-- The cache and engine holding only that solution for problem "p". -/
def cacheQuote : SolutionCache :=
  ⟨fun q => if q = "p" then [solQuote] else [], fun _ => []⟩

/-- Engine with the quote-bearing solution in the uncategorised bucket. -/
def engineQuote : MemoryEngine := ⟨[("errors_uncategorised", cacheQuote)], ⟨[]⟩, 0, 0, 0⟩

lemma scoreSolQuote : scoreSolution solQuote "p" [] 1000 = 0.255 := by
  simp only [scoreSolution, getDetailedMetrics, QualityMetrics.combined_score,
    scoreCompleteness, scoreClarity, scoreSpecificity, scoreReliability,
    scoreContextRelevance, solQuote]
  norm_num +decide [min_def, max_def]

lemma formatFixed3_eval : formatFixed3 0.255 = "0.255" := by
  have h2 : roundHalfEven ((0.255 : ℚ) * 1000) = 255 := by
    rw [show (0.255 : ℚ) * 1000 = 255 by norm_num]
    unfold roundHalfEven
    norm_num
  unfold formatFixed3
  rw [h2]
  decide

set_option maxRecDepth 100000 in
/-- Sanity check on the acceptor: the same serialization with quote-free
content is valid JSON. -/
lemma suggestionsJson_plain_valid :
    jsonValid (suggestionsJson [rankedPair solRankA 0.255] "ctx") = true := by
  unfold suggestionsJson
  simp only [List.map, joinComma, List.length, rankedPair, solRankA, formatFixed3_eval]
  decide

/-- Sanity check on the acceptor: escaping the quote makes it valid. -/
lemma escaped_variant_valid :
    jsonValid "\x7b\"solution\":\"a\\\"b\",\"score\":0.255\x7d" = true := by decide

set_option maxRecDepth 100000 in
/-- C5: for a solution whose content contains a quote character,
`getSuggestions` produces its output (the serialization embeds the content
verbatim), and that output is not syntactically valid JSON. -/
theorem suggestions_json_invalid_on_quote :
    GetSuggestionsResult engineQuote "p" "ctx" 1000
      (suggestionsJson [rankedPair solQuote 0.255] "ctx")
    ∧ jsonValid (suggestionsJson [rankedPair solQuote 0.255] "ctx") = false := by
  constructor
  · refine ⟨[rankedPair solQuote 0.255], ⟨[rankedPair solQuote 0.255], ?_, ?_, ?_⟩, rfl⟩
    · have hsc : scoredCandidates engineQuote "p" "" 1000
          = [rankedPair solQuote (scoreSolution solQuote "p" [] 1000)] := rfl
      rw [hsc, scoreSolQuote]
    · simp [sortedDesc]
    · simp [limitResults]
  · unfold suggestionsJson
    simp only [List.map, joinComma, List.length, rankedPair, solQuote, formatFixed3_eval]
    decide
